import Mathlib

/-!
# The TLS client of the tunnel: `src/client/tls_cli.c`

A shallow embedding of the two designs found in the file:

* the live, event-driven design built on `uv_mbed` (`tls_client_launch`,
  `_mbed_connect_done_cb`, `_mbed_data_received_cb`, `_tls_cli_send_data`,
  `_mbed_write_done_cb`, `_mbed_close_done_cb`, `tunnel_tls_send_data`);
* the worker-thread design kept under `#if 0` (`tls_cli_main_work_thread`,
  `tls_cli_send_data`, `tls_cli_state_changed_async_send`,
  `tls_cli_state_changed_notice_cb`).

Bytes are natural numbers below 256, a C string is the list of its bytes before
the terminating NUL, C integers are `Int`/`Nat` with the conversions written out.
-/

namespace TlsCli

/-! ## Bytes, `%d`, and memory regions -/

/-- Bytes of an ASCII string literal. -/
def ascii (s : String) : List Nat := s.toList.map Char.toNat

/-- Digits of `n`, most significant first, produced with `fuel` division steps. -/
def decimalAux : Nat → Nat → List Nat → List Nat
  | 0, _, acc => acc
  | fuel + 1, n, acc =>
    if n / 10 = 0 then (48 + n % 10) :: acc
    else decimalAux fuel (n / 10) ((48 + n % 10) :: acc)

/-- Decimal rendering of a natural number (`0` renders as the single digit `0`). -/
def decimal (n : Nat) : List Nat := decimalAux (n + 1) n []

/-- The conversion `%d` of `printf` applied to an `int`. -/
def fmt_d (i : Int) : List Nat :=
  if i < 0 then 45 :: decimal i.natAbs else decimal i.natAbs

/-- The cast `(int)size` of a `size_t`: the low 32 bits read as two's complement. -/
def to_int (n : Nat) : Int :=
  if n % 2 ^ 32 < 2 ^ 31 then ((n % 2 ^ 32 : Nat) : Int) else ((n % 2 ^ 32 : Nat) : Int) - 2 ^ 32

/-- The cast `(unsigned int)len` of an `int`. -/
def to_unsigned (i : Int) : Nat := (i % 2 ^ 32).toNat

/-- The region `calloc(n, 1)` returns: `n` zero bytes. -/
def calloc (n : Nat) : List Nat := List.replicate n 0

/-- Memory after storing `src` at offset `off` of the region `buf`. A store that
runs past the end of `buf` lengthens the list: the caller of `store` checks the
bounds and reports such a store as an overrun. -/
def store (buf : List Nat) (off : Nat) (src : List Nat) : List Nat :=
  buf.take off ++ src ++ buf.drop (off + src.length)

/-! ## The request envelope -/

def MAX_REQUEST_SIZE : Nat := 0x8000

/-- The seven header lines of `GET_REQUEST_FORMAT` that hold no conversion
(`User-Agent` to `Content-Type`, source lines 34 to 40). -/
def fixed_headers : List Nat :=
  ascii "User-Agent: Mozilla/5.0 (Windows NT 5.1; rv:52.0) Gecko/20100101 Firefox/52.0\r\n"
  ++ ascii "Accept: text/html,application/xhtml+xml,application/octet-stream;q=0.9,*/*;q=0.8\r\n"
  ++ ascii "Accept-Language: en-US,en;q=0.5\r\n"
  ++ ascii "Accept-Encoding: gzip, deflate\r\n"
  ++ ascii "Connection: keep-alive\r\n"
  ++ ascii "Upgrade-Insecure-Requests: 1\r\n"
  ++ ascii "Content-Type: application/octet-stream\r\n"

/-- The text `printf` renders from `GET_REQUEST_FORMAT` with the four arguments
`url_path`, `domain`, `domain_port`, `(int)size` (source lines 31 to 42). -/
def GET_REQUEST_FORMAT (url_path domain : List Nat) (domain_port size : Int) : List Nat :=
  ascii "POST " ++ url_path ++ ascii " HTTP/1.1\r\n"
  ++ ascii "Host: " ++ domain ++ ascii ":" ++ fmt_d domain_port ++ ascii "\r\n"
  ++ fixed_headers
  ++ ascii "Content-Length: " ++ fmt_d size ++ ascii "\r\n"
  ++ ascii "\r\n"

/-- The call `mbedtls_snprintf(buf, n, fmt, ...)` where `text` is what the format
renders: at most `n - 1` bytes of `text` and a NUL are stored at the start of
`buf`; the value returned is the full length of `text`, truncated or not (the
`snprintf` of C99, which `mbedtls_snprintf` stands for). -/
def mbedtls_snprintf (buf : List Nat) (n : Nat) (text : List Nat) : List Nat × Int :=
  if n = 0 then (buf, (text.length : Int))
  else (store buf 0 (text.take (n - 1) ++ [0]), (text.length : Int))

/-- The fields of `struct server_config` read by the client. `remote_port` is
narrowed to `unsigned short` where it is used. -/
structure server_config where
  over_tls_path : List Nat
  over_tls_server_domain : List Nat
  remote_port : Nat
  deriving DecidableEq, Repr

/-- What `_tls_cli_send_data` hands to `uv_mbed_write`. The function has one
path only, and it ends in that call. -/
inductive WriteCall where
  /-- Every access stayed inside the allocation; `o` is `o.base[0 .. o.len)`. -/
  | bytes (o : List Nat)
  /-- The `memcpy`, or the buffer `o` itself, runs past the
  `MAX_REQUEST_SIZE + 1` allocated bytes (undefined behaviour in C); the call is
  issued all the same, with `o.len = len`. -/
  | overrun (len : Nat)
  deriving DecidableEq, Repr

/-- Source lines 149 to 168. `data` is `none` for a NULL pointer; `size` is the
byte count passed along with it. -/
def _tls_cli_send_data (config : server_config) (data : Option (List Nat)) (size : Nat) :
    WriteCall :=
  let url_path := config.over_tls_path
  let domain := config.over_tls_server_domain
  let domain_port : Int := ((config.remote_port % 65536 : Nat) : Int)
  let buf := calloc (MAX_REQUEST_SIZE + 1)
  let r := mbedtls_snprintf buf MAX_REQUEST_SIZE
    (GET_REQUEST_FORMAT url_path domain domain_port (to_int size))
  let len := r.2
  match data with
  | some d =>
    if size ≠ 0 then
      -- memcpy(buf + len, data, size); len += (int)size;
      let buf1 := store r.1 len.toNat (d.take size)
      let len1 := len + to_int size
      if size ≤ d.length ∧ 0 ≤ len ∧ len.toNat + size ≤ MAX_REQUEST_SIZE + 1
          ∧ to_unsigned len1 ≤ MAX_REQUEST_SIZE + 1 then
        WriteCall.bytes (buf1.take (to_unsigned len1))
      else WriteCall.overrun (to_unsigned len1)
    else if to_unsigned len ≤ MAX_REQUEST_SIZE + 1 then
      WriteCall.bytes (r.1.take (to_unsigned len))
    else WriteCall.overrun (to_unsigned len)
  | none =>
    if to_unsigned len ≤ MAX_REQUEST_SIZE + 1 then
      WriteCall.bytes (r.1.take (to_unsigned len))
    else WriteCall.overrun (to_unsigned len)

/-- Source lines 194 to 197: the entry point installed on the tunnel. -/
def tunnel_tls_send_data (config : server_config) (data : Option (List Nat)) (size : Nat) :
    WriteCall :=
  _tls_cli_send_data config data size

/-! ## A server that reads the request back -/

/-- What follows the first occurrence of `pat` in `l`, if `pat` occurs. -/
def after_first (pat : List Nat) : List Nat → Option (List Nat)
  | [] => if pat = [] then some [] else none
  | c :: rest =>
    if pat.isPrefixOf (c :: rest) then some ((c :: rest).drop pat.length)
    else after_first pat rest

/-- The body of a request: everything after the first empty line (CR LF CR LF). -/
def strip_request_headers (l : List Nat) : Option (List Nat) :=
  after_first [13, 10, 13, 10] l

/-- Value of a run of decimal digits. -/
def digits_value (ds : List Nat) : Nat := ds.foldl (fun a d => 10 * a + (d - 48)) 0

/-- The `Content-Length` a server reads: the decimal digits that follow the first
line start `Content-Length: `. -/
def read_content_length (l : List Nat) : Option Nat :=
  (after_first (ascii "\r\nContent-Length: ") l).map
    (fun r => digits_value (r.takeWhile (fun c => decide (48 ≤ c ∧ c ≤ 57))))

/-- The header the claims spell out: request line, `Host`, the fixed lines,
`Content-Length`, and the empty line. -/
def request_header (path host : List Nat) (port n : Nat) : List Nat :=
  ascii "POST " ++ path ++ ascii " HTTP/1.1\r\nHost: " ++ host ++ ascii ":" ++ decimal port
  ++ ascii "\r\n" ++ fixed_headers ++ ascii "Content-Length: " ++ decimal n ++ ascii "\r\n\r\n"

/-- The lines `ls`, each closed by CR LF, followed by `t`. -/
def lines_then (ls : List (List Nat)) (t : List Nat) : List Nat :=
  ls.foldr (fun l acc => l ++ 13 :: 10 :: acc) t

/-- Whether two lists disagree at a position both have. -/
def differ : List Nat → List Nat → Bool
  | a :: as, b :: bs => a != b || differ as bs
  | _, _ => false

/-- The fixed header lines without their line ends. -/
def fixed_lines : List (List Nat) :=
  [ ascii "User-Agent: Mozilla/5.0 (Windows NT 5.1; rv:52.0) Gecko/20100101 Firefox/52.0",
    ascii "Accept: text/html,application/xhtml+xml,application/octet-stream;q=0.9,*/*;q=0.8",
    ascii "Accept-Language: en-US,en;q=0.5",
    ascii "Accept-Encoding: gzip, deflate",
    ascii "Connection: keep-alive",
    ascii "Upgrade-Insecure-Requests: 1",
    ascii "Content-Type: application/octet-stream" ]

/-! ## The live design: callbacks driven by `uv_mbed` -/

/-- The callback slots of `struct tunnel_ctx` that the client calls; `false`
stands for a NULL slot. -/
structure tunnel_ctx where
  tunnel_tls_on_connection_established : Bool
  tunnel_tls_on_data_coming : Bool
  tunnel_tls_on_shutting_down : Bool
  deriving DecidableEq, Repr

/-- What the callbacks of the live design do, in the order they do it: calls
of the tunnel's callbacks and calls into `uv_mbed`. Printing is left out. -/
inductive Action where
  | on_connection_established
  | on_data_coming (data : List Nat)
  | on_shutting_down
  | uv_mbed_connect
  | uv_mbed_read
  | uv_mbed_write (o : WriteCall)
  | uv_mbed_close
  | uv_mbed_free
  | free_ctx
  | free_base
  | assert_failed
  deriving DecidableEq, Repr

/-- Source lines 106 to 121. -/
def _mbed_connect_done_cb (tunnel : tunnel_ctx) (status : Int) : List Action :=
  if status < 0 then [Action.uv_mbed_close]
  else
    Action.uv_mbed_read ::
      (if tunnel.tunnel_tls_on_connection_established then [Action.on_connection_established]
       else [])

/-- Source lines 128 to 147. `base` is the memory behind `buf->base`; with
`nread > 0` its first `nread` bytes are what was received. The `assert` on the
slot aborts the process when the slot is NULL. -/
def _mbed_data_received_cb (tunnel : tunnel_ctx) (nread : Int) (base : List Nat) :
    List Action :=
  if nread > 0 then
    if tunnel.tunnel_tls_on_data_coming then
      [Action.on_data_coming (base.take nread.toNat), Action.free_base]
    else [Action.assert_failed]
  else if nread < 0 then [Action.uv_mbed_close, Action.free_base]
  else [Action.free_base]

/-- Source lines 170 to 179. -/
def _mbed_write_done_cb (status : Int) : List Action :=
  if status < 0 then [Action.uv_mbed_close] else []

/-- Source lines 181 to 192. -/
def _mbed_close_done_cb (tunnel : tunnel_ctx) : List Action :=
  (if tunnel.tunnel_tls_on_shutting_down then [Action.on_shutting_down] else [])
    ++ [Action.uv_mbed_free, Action.free_ctx]

/-- Modelled from the spec: `uv_mbed_close` is a function of the uv_mbed library,
which is not under src/. Each close request is completed by one call of the
close callback that was passed with it, here always `_mbed_close_done_cb`. -/
def complete_close (tunnel : tunnel_ctx) (acts : List Action) : List Action :=
  acts.flatMap (fun a =>
    if a = Action.uv_mbed_close then a :: _mbed_close_done_cb tunnel else [a])

/-- What reaches one session: the three completions `uv_mbed` reports, and the
tunnel calling the `tunnel_tls_send_data` entry point installed on it. -/
inductive Event where
  | connect_done (status : Int)
  | data_received (nread : Int) (base : List Nat)
  | write_done (status : Int)
  | send_data (data : Option (List Nat)) (size : Nat)
  deriving DecidableEq, Repr

/-- A completion that reports a failure, and so requests the close. -/
def Event.is_failure : Event → Bool
  | Event.connect_done status => decide (status < 0)
  | Event.data_received nread _ => decide (nread < 0)
  | Event.write_done status => decide (status < 0)
  | Event.send_data _ _ => false

/-- One session: `struct tls_cli_ctx` (the weak pointers `tunnel` and `config`)
and what the session has done so far. `handshake_done` is not a field of the C
structure, which keeps no state of the connection: it records for the
statements below whether `_mbed_connect_done_cb` has been called with a
status that is not negative. `freed` says that `_mbed_close_done_cb` has run
`uv_mbed_free(mbed)` and `free(ctx)`; `use_after_free` counts the events that
reached the session after that, each of which reads the freed `ctx`
(undefined behaviour in C). -/
structure Session where
  config : server_config
  tunnel : tunnel_ctx
  handshake_done : Bool
  trace : List Action
  freed : Bool
  use_after_free : Nat
  deriving DecidableEq, Repr

/-- Source lines 93 to 104: the session right after launch. The entry point
`tunnel_tls_send_data` is installed on the tunnel from here on. -/
def tls_client_launch (tunnel : tunnel_ctx) (config : server_config) : Session :=
  { config := config, tunnel := tunnel, handshake_done := false,
    trace := [Action.uv_mbed_connect], freed := false, use_after_free := 0 }

/-- The session after one event. On a live session the callback of the event
runs, and the session is freed when the close it requested has completed. A
completion that reaches a freed session finds `p` dangling: the first statements
of its callback read `ctx->tunnel` and `ctx->mbed` from freed memory, so nothing
the callback would do is recorded, only the use after free. A send that
reaches a freed session reads the freed `ctx` as well, on the one path of
`tunnel_tls_send_data` that ends in `uv_mbed_write`: the use after free is
counted and the write is recorded with the configuration the session had. -/
def Session.step (s : Session) : Event → Session
  | Event.connect_done status =>
    if s.freed then { s with use_after_free := s.use_after_free + 1 }
    else
      { s with
        handshake_done := s.handshake_done || decide (0 ≤ status)
        trace := s.trace ++ complete_close s.tunnel (_mbed_connect_done_cb s.tunnel status)
        freed := decide (Action.free_ctx
          ∈ complete_close s.tunnel (_mbed_connect_done_cb s.tunnel status)) }
  | Event.data_received nread base =>
    if s.freed then { s with use_after_free := s.use_after_free + 1 }
    else
      { s with
        trace := s.trace
          ++ complete_close s.tunnel (_mbed_data_received_cb s.tunnel nread base)
        freed := decide (Action.free_ctx
          ∈ complete_close s.tunnel (_mbed_data_received_cb s.tunnel nread base)) }
  | Event.write_done status =>
    if s.freed then { s with use_after_free := s.use_after_free + 1 }
    else
      { s with
        trace := s.trace ++ complete_close s.tunnel (_mbed_write_done_cb status)
        freed := decide (Action.free_ctx
          ∈ complete_close s.tunnel (_mbed_write_done_cb status)) }
  | Event.send_data data size =>
    { s with
      trace := s.trace ++ [Action.uv_mbed_write (tunnel_tls_send_data s.config data size)]
      use_after_free := if s.freed then s.use_after_free + 1 else s.use_after_free }

/-- The session after a sequence of events. -/
def Session.run (s : Session) (es : List Event) : Session := es.foldl Session.step s

/-- How often the tunnel's `on_shutting_down` was called. -/
def count_shutting_down (acts : List Action) : Nat := acts.count Action.on_shutting_down

/-- Whether an action is a TLS write. -/
def Action.is_write : Action → Bool
  | Action.uv_mbed_write _ => true
  | _ => false

/-! ## The worker-thread design (the part of the file under `#if 0`) -/

inductive tls_cli_state where
  | tls_state_stopped
  | tls_state_connected
  | tls_state_data_coming
  | tls_state_shutting_down
  deriving DecidableEq, Repr

/-- The `struct buffer_t` that `buffer_create_from(buf + n, len - n)` builds: the
region of `size` bytes that starts `start` bytes after the first byte of the
received chunk `src`. -/
structure buffer_t where
  src : List Nat
  start : Int
  size : Nat
  deriving DecidableEq, Repr

/-- The bytes of the region when it lies inside the received chunk, `none` when
it reaches outside of it. -/
def buffer_t.bytes (b : buffer_t) : Option (List Nat) :=
  if 0 ≤ b.start ∧ b.start.toNat + b.size ≤ b.src.length then
    some ((b.src.drop b.start.toNat).take b.size)
  else none

/-- Source lines 80 to 84; the weak pointer `ctx` is left out. -/
structure tls_cli_state_ctx where
  data : Option buffer_t
  state : tls_cli_state
  deriving DecidableEq, Repr

/-- The expression `(size_t)(len - n)` with `len` a `size_t` and `n` an `int`. -/
def size_sub (len : Nat) (n : Int) : Nat := (((len : Int) - n) % 2 ^ 64).toNat

/-- Source lines 672 to 688: the notification `ptr` that
`tls_cli_state_changed_async_send` builds. `phr` stands for the call
`phr_parse_response(buf, len, ...)` of picohttpparser, which is not under src/:
it is given the `len` received bytes and returns an `int`. -/
def new_state_ctx (phr : List Nat → Int) (state : tls_cli_state) (buf : Option (List Nat))
    (len : Nat) : tls_cli_state_ctx :=
  match buf with
  | some b =>
    if len ≠ 0 then
      let n := phr (b.take len)
      { data := some { src := b.take len, start := n, size := size_sub len n }, state := state }
    else { data := none, state := state }
  | none => { data := none, state := state }

/-- Outcome of `tls_cli_state_changed_async_send`, with `assert` compiled in
(`NDEBUG` not defined). -/
inductive Sent where
  /-- The slot `ctx->async->data` was empty and now holds the notification. -/
  | stored (ptr : tls_cli_state_ctx)
  /-- `assert(ctx->async->data == NULL)` failed; the slot still holds `pending`. -/
  | assert_failed (pending : tls_cli_state_ctx)
  deriving DecidableEq, Repr

/-- Source lines 669 to 692. `slot` is `ctx->async->data`. -/
def tls_cli_state_changed_async_send (phr : List Nat → Int) (slot : Option tls_cli_state_ctx)
    (state : tls_cli_state) (buf : Option (List Nat)) (len : Nat) : Sent :=
  let ptr := new_state_ctx phr state buf len
  match slot with
  | none => Sent.stored ptr
  | some pending => Sent.assert_failed pending

/-- The calls of tunnel callbacks made by `tls_cli_state_changed_notice_cb`. -/
inductive Delivery where
  | on_connection_established
  | on_data_coming (data : Option buffer_t)
  | on_shutting_down
  | assert_failed
  deriving DecidableEq, Repr

/-- The `switch` of `tls_cli_state_changed_notice_cb` (source lines 633 to 652). -/
def dispatch (tunnel : tunnel_ctx) (ptr : tls_cli_state_ctx) : List Delivery :=
  match ptr.state with
  | tls_cli_state.tls_state_connected =>
    if tunnel.tunnel_tls_on_connection_established then [Delivery.on_connection_established]
    else []
  | tls_cli_state.tls_state_data_coming =>
    if tunnel.tunnel_tls_on_data_coming then [Delivery.on_data_coming ptr.data] else []
  | tls_cli_state.tls_state_shutting_down =>
    if tunnel.tunnel_tls_on_shutting_down then [Delivery.on_shutting_down] else []
  | tls_cli_state.tls_state_stopped => [Delivery.assert_failed]

/-- Source lines 622 to 654: the slot after the call and the callbacks called.
`none` when the slot is empty, where the function reads through a NULL pointer. -/
def tls_cli_state_changed_notice_cb (tunnel : tunnel_ctx) (slot : Option tls_cli_state_ctx) :
    Option (Option tls_cli_state_ctx × List Delivery) :=
  match slot with
  | none => none
  | some data_arrival => some (none, dispatch tunnel data_arrival)

/-- The two operations on the notification slot. -/
inductive BridgeOp where
  | send (state : tls_cli_state) (buf : Option (List Nat)) (len : Nat)
  | notice
  deriving DecidableEq, Repr

/-- The bridge: the slot, how many notifications were stored and taken so far,
and the callbacks called so far. -/
structure Bridge where
  slot : Option tls_cli_state_ctx
  stored : Nat
  taken : Nat
  delivered : List Delivery
  deriving DecidableEq, Repr

/-- One operation on the bridge; `none` when an assertion fails or the consumer
finds the slot empty. -/
def Bridge.step (phr : List Nat → Int) (tunnel : tunnel_ctx) (b : Bridge) :
    BridgeOp → Option Bridge
  | BridgeOp.send state buf len =>
    match tls_cli_state_changed_async_send phr b.slot state buf len with
    | Sent.stored ptr => some { b with slot := some ptr, stored := b.stored + 1 }
    | Sent.assert_failed _ => none
  | BridgeOp.notice =>
    match tls_cli_state_changed_notice_cb tunnel b.slot with
    | some (slot, ds) =>
      some { b with slot := slot, taken := b.taken + 1, delivered := b.delivered ++ ds }
    | none => none

/-- A sequence of operations on the bridge. -/
def Bridge.run (phr : List Nat → Int) (tunnel : tunnel_ctx) (b : Bridge) :
    List BridgeOp → Option Bridge
  | [] => some b
  | op :: ops =>
    match Bridge.step phr tunnel b op with
    | some b1 => Bridge.run phr tunnel b1 ops
    | none => none

/-- Modelled from the spec: the engine's code for "would block on read"
(`MBEDTLS_ERR_SSL_WANT_READ` of mbedtls/ssl.h, which is not under src/), with the
value mbed TLS 2 gives it. -/
def MBEDTLS_ERR_SSL_WANT_READ : Int := -0x6900

/-- Modelled from the spec: the engine's code for "would block on write"
(`MBEDTLS_ERR_SSL_WANT_WRITE` of mbedtls/ssl.h, which is not under src/). -/
def MBEDTLS_ERR_SSL_WANT_WRITE : Int := -0x6880

/-- Modelled from the spec: the engine's third retry code
(`MBEDTLS_ERR_SSL_CRYPTO_IN_PROGRESS` of mbedtls/ssl.h, which is not under src/). -/
def MBEDTLS_ERR_SSL_CRYPTO_IN_PROGRESS : Int := -0x7000

/-- Modelled from the spec: the engine's designated "peer closed" code
(`MBEDTLS_ERR_SSL_PEER_CLOSE_NOTIFY` of mbedtls/ssl.h, which is not under src/). -/
def MBEDTLS_ERR_SSL_PEER_CLOSE_NOTIFY : Int := -0x7880

/-- Modelled from the spec: the engine's "peer reset" code
(`MBEDTLS_ERR_NET_CONN_RESET` of mbedtls/net_sockets.h, which is not under src/). -/
def MBEDTLS_ERR_NET_CONN_RESET : Int := -0x0050

/-- What the worker thread does, in order: calls of the TLS engine with the value
each returned, and calls of `tls_cli_state_changed_async_send` with the
notification each built. -/
inductive WorkerStep where
  | ssl_handshake (ret : Int)
  | ssl_read (ret : Int)
  | ssl_close_notify (ret : Int)
  | async_send (ptr : tls_cli_state_ctx)
  deriving DecidableEq, Repr

/-- Where a loop of the worker thread leaves to. `starved` is not a label of the
source: the loop is still running when the listed engine results are used up. -/
inductive LoopExit where
  | completed
  | close_notify
  | reconnect
  | exit
  | starved
  deriving DecidableEq, Repr

/-- The handshake loop, source lines 371 to 394, over the values the successive
calls of `mbedtls_ssl_handshake` return. -/
def handshake_loop : List Int → List WorkerStep × LoopExit
  | [] => ([], LoopExit.starved)
  | ret :: rest =>
    if ret = 0 then ([WorkerStep.ssl_handshake ret], LoopExit.completed)
    else if ret ≠ MBEDTLS_ERR_SSL_WANT_READ ∧ ret ≠ MBEDTLS_ERR_SSL_WANT_WRITE
        ∧ ret ≠ MBEDTLS_ERR_SSL_CRYPTO_IN_PROGRESS then
      ([WorkerStep.ssl_handshake ret], LoopExit.exit)
    else
      (WorkerStep.ssl_handshake ret :: (handshake_loop rest).1, (handshake_loop rest).2)

/-- The read loop, source lines 450 to 502, over the successive results of
`mbedtls_ssl_read`: the value returned and the contents of `buf` after the call.
`ecp` says whether `MBEDTLS_ECP_RESTARTABLE` is defined. -/
def read_loop (ecp : Bool) (phr : List Nat → Int) :
    List (Int × List Nat) → List WorkerStep × LoopExit
  | [] => ([], LoopExit.starved)
  | (ret, buf) :: rest =>
    if ecp = true ∧ ret = MBEDTLS_ERR_SSL_CRYPTO_IN_PROGRESS then
      (WorkerStep.ssl_read ret :: (read_loop ecp phr rest).1, (read_loop ecp phr rest).2)
    else if ret = MBEDTLS_ERR_SSL_WANT_READ ∨ ret = MBEDTLS_ERR_SSL_WANT_WRITE then
      (WorkerStep.ssl_read ret :: (read_loop ecp phr rest).1, (read_loop ecp phr rest).2)
    else if ret ≤ 0 then
      if ret = MBEDTLS_ERR_SSL_PEER_CLOSE_NOTIFY then
        ([WorkerStep.ssl_read ret], LoopExit.close_notify)
      else if ret = 0 ∨ ret = MBEDTLS_ERR_NET_CONN_RESET then
        ([WorkerStep.ssl_read ret], LoopExit.reconnect)
      else ([WorkerStep.ssl_read ret], LoopExit.exit)
    else
      let len := ret.toNat
      let sent := WorkerStep.async_send
        (new_state_ctx phr tls_cli_state.tls_state_data_coming (some buf) len)
      if buf.get? (len - 1) = some 10 then
        ([WorkerStep.ssl_read ret, sent], LoopExit.close_notify)
      else
        (WorkerStep.ssl_read ret :: sent :: (read_loop ecp phr rest).1,
          (read_loop ecp phr rest).2)

/-- The loop at `close_notify:`, source lines 515 to 517, over the values the
calls of `mbedtls_ssl_close_notify` return; `false` when the loop is still
running after the listed values. -/
def close_notify_loop : List Int → List WorkerStep × Bool
  | [] => ([], false)
  | ret :: rest =>
    if ret = MBEDTLS_ERR_SSL_WANT_WRITE then
      (WorkerStep.ssl_close_notify ret :: (close_notify_loop rest).1, (close_notify_loop rest).2)
    else ([WorkerStep.ssl_close_notify ret], true)

/-- The notification of source line 536. -/
def shutting_down_sent (phr : List Nat → Int) : WorkerStep :=
  WorkerStep.async_send (new_state_ctx phr tls_cli_state.tls_state_shutting_down none 0)

/-- Source lines 449 to 536 of `tls_cli_main_work_thread`: the read loop, the
labels `close_notify`, `reconnect` and `exit`, and the notification sent at
`exit`. The Boolean says whether the thread got as far as that notification. -/
def read_and_teardown (ecp : Bool) (phr : List Nat → Int) (reads : List (Int × List Nat))
    (closes : List Int) : List WorkerStep × Bool :=
  match read_loop ecp phr reads with
  | (steps, LoopExit.starved) => (steps, false)
  | (steps, LoopExit.close_notify) =>
    if (close_notify_loop closes).2 then
      (steps ++ (close_notify_loop closes).1 ++ [shutting_down_sent phr], true)
    else (steps ++ (close_notify_loop closes).1, false)
  | (steps, _) => (steps ++ [shutting_down_sent phr], true)

/-- The results the worker thread gets from the TLS engine. `setup` stands for the
calls before the handshake loop whose value the thread tests
(`mbedtls_ctr_drbg_seed`, `mbedtls_net_connect`, `mbedtls_net_set_nonblock`,
`mbedtls_ssl_config_defaults`, `mbedtls_ssl_conf_own_cert`, `mbedtls_ssl_conf_psk`,
`mbedtls_ssl_setup`, `mbedtls_ssl_set_hostname`): zero when all of them returned
zero, the value of the first that did not otherwise. The values of
`mbedtls_x509_crt_parse_file`, `mbedtls_x509_crt_parse` and `mbedtls_pk_parse_key`
(source lines 279 to 289) are overwritten without being tested and are no part
of it. -/
structure Engine where
  setup : Int
  handshakes : List Int
  reads : List (Int × List Nat)
  closes : List Int
  deriving DecidableEq, Repr

/-- The worker thread, source lines 232 to 562. A tested call before the
handshake loop that fails, and a failed handshake, leave by `goto exit`. -/
def tls_cli_main_work_thread (ecp : Bool) (phr : List Nat → Int) (e : Engine) :
    List WorkerStep × Bool :=
  if e.setup ≠ 0 then ([shutting_down_sent phr], true)
  else
    match handshake_loop e.handshakes with
    | (steps, LoopExit.starved) => (steps, false)
    | (steps, LoopExit.completed) =>
      let connected := WorkerStep.async_send
        (new_state_ctx phr tls_cli_state.tls_state_connected none 0)
      let r := read_and_teardown ecp phr e.reads e.closes
      (steps ++ connected :: r.1, r.2)
    | (steps, _) => (steps ++ [shutting_down_sent phr], true)

/-- The tunnel callbacks called for the notifications a run of the worker thread
sent, each taken from the slot before the next is stored. -/
def deliveries (tunnel : tunnel_ctx) : List WorkerStep → List Delivery
  | [] => []
  | WorkerStep.async_send ptr :: rest => dispatch tunnel ptr ++ deliveries tunnel rest
  | _ :: rest => deliveries tunnel rest

/-- Whether a step is the notification of `tls_state_shutting_down`. -/
def WorkerStep.is_shutting_down : WorkerStep → Bool
  | WorkerStep.async_send ptr => decide (ptr.state = tls_cli_state.tls_state_shutting_down)
  | _ => false

/-- Whether a step is a call of `mbedtls_ssl_read`. -/
def WorkerStep.is_read : WorkerStep → Bool
  | WorkerStep.ssl_read _ => true
  | _ => false

/-- Whether a step is a call of `mbedtls_ssl_close_notify`. -/
def WorkerStep.is_close_notify : WorkerStep → Bool
  | WorkerStep.ssl_close_notify _ => true
  | _ => false

/-- A read result after which the read loop goes round again: a retry code, or
data whose last byte is not LF. -/
def read_continues (ecp : Bool) (r : Int × List Nat) : Bool :=
  (ecp && decide (r.1 = MBEDTLS_ERR_SSL_CRYPTO_IN_PROGRESS))
    || decide (r.1 = MBEDTLS_ERR_SSL_WANT_READ) || decide (r.1 = MBEDTLS_ERR_SSL_WANT_WRITE)
    || (decide (0 < r.1) && !decide (r.2.get? (r.1.toNat - 1) = some 10))

/-- Modelled from the spec: the HTTP header parser (`phr_parse_response` of
picohttpparser, which is not under src/) as the spec describes it, a black box
that returns the byte offset where the body starts, or "incomplete" (the
negative code -2) when the header block has not fully arrived. -/
def phr_parse_response (buf : List Nat) : Int :=
  match after_first [13, 10, 13, 10] buf with
  | some body => ((buf.length - body.length : Nat) : Int)
  | none => -2

/-! ## The retry loops of the worker thread -/

/-- A value of `mbedtls_ssl_handshake` on which the handshake loop goes round
again (source lines 372 to 374). -/
def handshake_would_block (r : Int) : Bool :=
  decide (r = MBEDTLS_ERR_SSL_WANT_READ) || decide (r = MBEDTLS_ERR_SSL_WANT_WRITE)
    || decide (r = MBEDTLS_ERR_SSL_CRYPTO_IN_PROGRESS)

/-- A value of `mbedtls_ssl_read` on which the read loop goes round again
(source lines 456 to 463): the crypto-in-progress code only when
`MBEDTLS_ECP_RESTARTABLE` is defined. -/
def read_would_block (ecp : Bool) (r : Int) : Bool :=
  (ecp && decide (r = MBEDTLS_ERR_SSL_CRYPTO_IN_PROGRESS))
    || decide (r = MBEDTLS_ERR_SSL_WANT_READ) || decide (r = MBEDTLS_ERR_SSL_WANT_WRITE)

/-! ## The write loop of the worker-thread design -/

/-- One call `mbedtls_ssl_write(ssl_ctx, buf + written, len - written)`: the
offset `written`, the `len - written` bytes behind it that are offered to the
engine, and the value the call returned. -/
structure WriteStep where
  written : Nat
  offered : List Nat
  ret : Int
  deriving DecidableEq, Repr

/-- The bytes the engine took in one call: as many of the offered bytes as the
value returned says, none for a value below zero. -/
def WriteStep.accepted (s : WriteStep) : List Nat := s.offered.take s.ret.toNat

/-- A value of `mbedtls_ssl_write` on which the write loop gives up (source lines
598 to 605): below zero and none of the three retry codes. -/
def write_fatal (r : Int) : Bool :=
  decide (r < 0) && !handshake_would_block r

/-- The write loop, source lines 593 to 611, over the values the successive
calls of `mbedtls_ssl_write` return. `request` is `buf[0 .. len)`. The result
is `some true` when `result = true` is reached, `some false` for `goto exit`,
and `none` when the loop is still running after the listed values. -/
def write_loop (request : List Nat) : Nat → List Int → List WriteStep × Option Bool
  | _, [] => ([], none)
  | written, ret :: rest =>
    if ret < 0 then
      if ret ≠ MBEDTLS_ERR_SSL_WANT_READ ∧ ret ≠ MBEDTLS_ERR_SSL_WANT_WRITE
          ∧ ret ≠ MBEDTLS_ERR_SSL_CRYPTO_IN_PROGRESS then
        ([{ written := written, offered := request.drop written, ret := ret }], some false)
      else
        ({ written := written, offered := request.drop written, ret := ret }
            :: (write_loop request written rest).1,
          (write_loop request written rest).2)
    else if written + ret.toNat < request.length then
      ({ written := written, offered := request.drop written, ret := ret }
          :: (write_loop request (written + ret.toNat) rest).1,
        (write_loop request (written + ret.toNat) rest).2)
    else ([{ written := written, offered := request.drop written, ret := ret }], some true)

/-- Source lines 575 to 620. The lines 582 to 591 frame the request with the
statements of `_tls_cli_send_data` (its lines 155 to 162); the write loop then
runs over the framed request. `none` when the framing ran past the request
buffer. -/
def tls_cli_send_data (url_path domain : List Nat) (domain_port : Nat)
    (data : Option (List Nat)) (size : Nat) (results : List Int) :
    Option (List WriteStep × Option Bool) :=
  match _tls_cli_send_data ⟨url_path, domain, domain_port⟩ data size with
  | WriteCall.bytes request => some (write_loop request 0 results)
  | WriteCall.overrun _ => none

/-- Whether each call of a run offers exactly the unsent rest of the request,
`request[written ..)`, where `written` starts at the given offset and grows by
every accepted count. -/
def offers_remainder (request : List Nat) : Nat → List WriteStep → Bool
  | _, [] => true
  | written, s :: rest =>
    decide (s.written = written) && decide (s.offered = request.drop written)
      && offers_remainder request (written + s.ret.toNat) rest

/-- The bytes the engine accepted over a sequence of results. -/
def accepted_count (results : List Int) : Nat := (results.map Int.toNat).sum

/-! ## Which events can reach a session -/

/-- Modelled from the spec: `uv_mbed` is not under src/. As in the single-context
model of the spec its completions are callbacks of one event loop, run one
after the other, and `_mbed_data_received_cb` is known to it only from the call
of `uv_mbed_read` in `_mbed_connect_done_cb` (source line 116): a data-received
event reaches the session only after that call has been made. -/
def Session.admits (s : Session) : Event → Bool
  | Event.data_received _ _ => decide (Action.uv_mbed_read ∈ s.trace)
  | _ => true

/-- Whether every event of a sequence can reach the session when its turn comes. -/
def Session.admissible (s : Session) : List Event → Bool
  | [] => true
  | e :: es => s.admits e && (s.step e).admissible es

/-- Whether no call of `on_data_coming` comes before the first call of
`on_connection_established`. -/
def data_after_established : List Action → Bool
  | [] => true
  | Action.on_connection_established :: _ => true
  | Action.on_data_coming _ :: _ => false
  | _ :: rest => data_after_established rest

/-- The framed request of the scenario: path `/path`, host `example.com`, port
443, payload `hello`; 390 bytes. -/
def scenario_request : List Nat :=
  request_header (ascii "/path") (ascii "example.com") 443 5 ++ ascii "hello"

/-- Values of `mbedtls_ssl_write` for a request written in two parts: a retry,
100 bytes accepted, a retry, no byte accepted, the other 290 bytes accepted. -/
def scenario_write_results : List Int :=
  [MBEDTLS_ERR_SSL_WANT_READ, 100, MBEDTLS_ERR_SSL_WANT_WRITE, 0, 290]

/-! ## Theorems -/

theorem fmt_d_natCast (n : Nat) : fmt_d (n : Int) = decimal n := by
  simp [fmt_d]

theorem to_int_of_lt {n : Nat} (h : n < 2 ^ 31) : to_int n = (n : Int) := by
  unfold to_int
  have h1 : n % 2 ^ 32 = n := Nat.mod_eq_of_lt (by omega)
  rw [h1, if_pos h]

theorem to_unsigned_natCast {n : Nat} (h : n < 2 ^ 32) : to_unsigned (n : Int) = n := by
  unfold to_unsigned
  have : ((n : Int) % 2 ^ 32) = (n : Int) := Int.emod_eq_of_lt (by omega) (by exact_mod_cast h)
  rw [this]; simp

theorem GET_REQUEST_FORMAT_eq (path host : List Nat) (port n : Nat) :
    GET_REQUEST_FORMAT path host (port : Int) (n : Int) = request_header path host port n := by
  simp [GET_REQUEST_FORMAT, request_header, fmt_d_natCast, ascii, List.append_assoc]

theorem length_calloc (n : Nat) : (calloc n).length = n := by simp [calloc]

/-- A text shorter than the bound is stored whole by `mbedtls_snprintf`, and a
payload stored right behind it gives the text followed by the payload. -/
theorem store_snprintf_take (text P : List Nat) (cap : Nat) :
    (store (store (calloc cap) 0 (text ++ [0])) text.length P).take (text.length + P.length)
      = text ++ P := by
  simp only [store, List.take_zero, List.nil_append, List.drop_zero, Nat.zero_add]
  rw [List.append_assoc text, List.take_left' rfl, List.append_assoc, ← List.append_assoc text P]
  exact List.take_left' (by simp)

theorem snprintf_take (text : List Nat) (cap : Nat) :
    (store (calloc cap) 0 (text ++ [0])).take text.length = text := by
  simp only [store, List.take_zero, List.nil_append, List.drop_zero, Nat.zero_add]
  rw [List.append_assoc text, List.take_left' rfl]

theorem snprintf_fits (buf text : List Nat) (h : text.length < MAX_REQUEST_SIZE) :
    mbedtls_snprintf buf MAX_REQUEST_SIZE text = (store buf 0 (text ++ [0]), (text.length : Int)) := by
  have hM : MAX_REQUEST_SIZE = 32768 := rfl
  unfold mbedtls_snprintf
  rw [if_neg (by rw [hM]; decide), List.take_of_length_le (by omega)]

/-- The in-bounds behaviour of `_tls_cli_send_data`. -/
theorem send_data_in_bounds (config : server_config) (P : List Nat)
    (hL : (GET_REQUEST_FORMAT config.over_tls_path config.over_tls_server_domain
      ((config.remote_port % 65536 : Nat) : Int) (to_int P.length)).length < MAX_REQUEST_SIZE)
    (hfit : (GET_REQUEST_FORMAT config.over_tls_path config.over_tls_server_domain
      ((config.remote_port % 65536 : Nat) : Int) (to_int P.length)).length + P.length
        ≤ MAX_REQUEST_SIZE + 1) :
    _tls_cli_send_data config (some P) P.length
      = WriteCall.bytes (GET_REQUEST_FORMAT config.over_tls_path config.over_tls_server_domain
          ((config.remote_port % 65536 : Nat) : Int) (to_int P.length) ++ P) := by
  have hM : MAX_REQUEST_SIZE = 32768 := rfl
  have hP : P.length < 2 ^ 31 := by omega
  rw [to_int_of_lt hP] at hL hfit ⊢
  generalize htext : GET_REQUEST_FORMAT config.over_tls_path config.over_tls_server_domain
      ((config.remote_port % 65536 : Nat) : Int) (P.length : Int) = text at hL hfit ⊢
  unfold _tls_cli_send_data
  simp only [to_int_of_lt hP, htext, snprintf_fits _ text hL]
  by_cases hz : P.length = 0
  · have hnil : P = [] := List.length_eq_zero.mp hz
    subst hnil
    simp only [List.length_nil, ne_eq, not_true_eq_false, if_false, List.append_nil]
    rw [to_unsigned_natCast (by omega), if_pos (by omega), snprintf_take]
  · simp only [ne_eq, hz, not_false_eq_true, if_true, Int.toNat_ofNat, List.take_length]
    have hsum : (text.length : Int) + (P.length : Int) = ((text.length + P.length : Nat) : Int) := by
      push_cast; rfl
    rw [hsum, to_unsigned_natCast (by omega)]
    rw [if_pos ⟨le_refl _, by omega, hfit, hfit⟩, store_snprintf_take]

theorem length_GET_REQUEST_FORMAT_pos (path host : List Nat) (port size : Int) :
    5 ≤ (GET_REQUEST_FORMAT path host port size).length := by
  have h : (ascii "POST ").length = 5 := by decide
  simp only [GET_REQUEST_FORMAT, List.length_append, h]
  omega

/-- A payload that does not fit behind the rendered header is copied past the
end of the request buffer, and the write is issued all the same. -/
theorem send_data_overrun (config : server_config) (P : List Nat) (hP : P.length ≠ 0)
    (h : MAX_REQUEST_SIZE + 1 < (GET_REQUEST_FORMAT config.over_tls_path
      config.over_tls_server_domain ((config.remote_port % 65536 : Nat) : Int)
      (to_int P.length)).length + P.length) :
    _tls_cli_send_data config (some P) P.length
      = WriteCall.overrun (to_unsigned
          (((GET_REQUEST_FORMAT config.over_tls_path config.over_tls_server_domain
            ((config.remote_port % 65536 : Nat) : Int) (to_int P.length)).length : Int)
            + to_int P.length)) := by
  have hsnd : ∀ buf text, (mbedtls_snprintf buf MAX_REQUEST_SIZE text).2 = (text.length : Int) := by
    intro buf text
    unfold mbedtls_snprintf
    split <;> rfl
  unfold _tls_cli_send_data
  simp only [hsnd]
  rw [if_pos hP, if_neg]
  rintro ⟨-, -, h3, -⟩
  rw [Int.toNat_ofNat] at h3
  omega

/-- A header of exactly `MAX_REQUEST_SIZE` bytes loses its last byte to the NUL
that `mbedtls_snprintf` stores. -/
theorem send_data_truncated (config : server_config)
    (h : (GET_REQUEST_FORMAT config.over_tls_path config.over_tls_server_domain
      ((config.remote_port % 65536 : Nat) : Int) (to_int 0)).length = MAX_REQUEST_SIZE) :
    _tls_cli_send_data config (some []) 0
      = WriteCall.bytes ((GET_REQUEST_FORMAT config.over_tls_path config.over_tls_server_domain
          ((config.remote_port % 65536 : Nat) : Int) (to_int 0)).take (MAX_REQUEST_SIZE - 1)
          ++ [0]) := by
  have hM : MAX_REQUEST_SIZE = 32768 := rfl
  have hs : ∀ buf text, mbedtls_snprintf buf MAX_REQUEST_SIZE text
      = (store buf 0 (text.take (MAX_REQUEST_SIZE - 1) ++ [0]), (text.length : Int)) := by
    intro buf text
    unfold mbedtls_snprintf
    rw [if_neg (by rw [hM]; decide)]
  unfold _tls_cli_send_data
  simp only [ne_eq, not_true_eq_false, if_false, hs, h]
  rw [to_unsigned_natCast (by rw [hM]; decide), if_pos (Nat.le_succ _)]
  congr 1
  simp only [store, List.take_zero, List.nil_append, List.drop_zero, Nat.zero_add]
  refine List.take_left' ?_
  rw [List.length_append, List.length_take, h, hM]
  rfl

/-! ### Reading the request back -/

theorem after_first_cons_of_not_isPrefixOf (pat : List Nat) (c : Nat) (rest : List Nat)
    (h : pat.isPrefixOf (c :: rest) = false) :
    after_first pat (c :: rest) = after_first pat rest := by
  simp [after_first, h]

theorem after_first_of_isPrefixOf (pat : List Nat) (c : Nat) (rest : List Nat)
    (h : pat.isPrefixOf (c :: rest) = true) :
    after_first pat (c :: rest) = some ((c :: rest).drop pat.length) := by
  simp [after_first, h]

/-- A stretch without CR cannot hold the start of a pattern that begins with CR. -/
theorem after_first_skip (key s t : List Nat) (hs : ∀ c ∈ s, c ≠ 13) :
    after_first (13 :: key) (s ++ t) = after_first (13 :: key) t := by
  induction s with
  | nil => rfl
  | cons c s ih =>
    have hc : c ≠ 13 := hs c (List.mem_cons_self _ _)
    rw [List.cons_append, after_first_cons_of_not_isPrefixOf]
    · exact ih (fun d hd => hs d (List.mem_cons_of_mem _ hd))
    · simp [List.isPrefixOf, Ne.symm hc]

theorem differ_isPrefixOf (key : List Nat) :
    ∀ (l rest : List Nat), differ key l = true → key.isPrefixOf (l ++ rest) = false := by
  induction key with
  | nil => intro l rest h; cases l <;> simp [differ] at h
  | cons k key ih =>
    intro l rest h
    cases l with
    | nil => simp [differ] at h
    | cons a l =>
      simp only [differ, Bool.or_eq_true, bne_iff_ne, ne_eq] at h
      simp only [List.cons_append, List.isPrefixOf, Bool.and_eq_false_imp, beq_iff_eq]
      intro hka
      rcases h with h | h
      · exact absurd hka h
      · exact ih l rest h

/-- Lines that hold no CR and do not start with `key` are passed over by a scan
for CR LF `key`. -/
theorem after_first_lines (key : List Nat) (ls : List (List Nat)) (t : List Nat)
    (hcr : ∀ l ∈ ls, ∀ c ∈ l, c ≠ 13) (hkey : ∀ l ∈ ls, differ key l = true) :
    after_first (13 :: 10 :: key) (13 :: 10 :: lines_then ls t)
      = after_first (13 :: 10 :: key) (13 :: 10 :: t) := by
  induction ls with
  | nil => rfl
  | cons l ls ih =>
    have hl := hkey l (List.mem_cons_self _ _)
    have h1 : (13 :: 10 :: key).isPrefixOf (13 :: 10 :: lines_then (l :: ls) t) = false := by
      simp only [lines_then, List.foldr_cons, List.isPrefixOf, beq_self_eq_true, Bool.true_and]
      exact differ_isPrefixOf key l _ hl
    have h2 : (13 :: 10 :: key).isPrefixOf (10 :: lines_then (l :: ls) t) = false := by
      simp [List.isPrefixOf]
    rw [after_first_cons_of_not_isPrefixOf _ _ _ h1, after_first_cons_of_not_isPrefixOf _ _ _ h2]
    show after_first (13 :: 10 :: key) (l ++ 13 :: 10 :: lines_then ls t) = _
    rw [after_first_skip _ _ _ (hcr l (List.mem_cons_self _ _))]
    exact ih (fun m hm => hcr m (List.mem_cons_of_mem _ hm))
      (fun m hm => hkey m (List.mem_cons_of_mem _ hm))

theorem lines_then_append (ls : List (List Nat)) (t : List Nat) :
    lines_then ls t = lines_then ls [] ++ t := by
  induction ls with
  | nil => rfl
  | cons l ls ih =>
    simp only [lines_then, List.foldr_cons] at ih ⊢
    rw [ih]; simp

set_option maxRecDepth 100000 in
theorem fixed_headers_eq : fixed_headers = lines_then fixed_lines [] := by decide

/-! ### Decimal digits -/

theorem decimalAux_digits : ∀ (fuel n : Nat) (acc : List Nat),
    (∀ d ∈ acc, 48 ≤ d ∧ d ≤ 57) → ∀ d ∈ decimalAux fuel n acc, 48 ≤ d ∧ d ≤ 57 := by
  intro fuel
  induction fuel with
  | zero => intro n acc h; simpa [decimalAux] using h
  | succ fuel ih =>
    intro n acc h
    have hacc : ∀ d ∈ (48 + n % 10) :: acc, 48 ≤ d ∧ d ≤ 57 := by
      intro d hd
      rcases List.mem_cons.mp hd with rfl | hd
      · omega
      · exact h d hd
    unfold decimalAux
    split
    · exact hacc
    · exact ih _ _ hacc

theorem decimal_digits (n : Nat) : ∀ d ∈ decimal n, 48 ≤ d ∧ d ≤ 57 :=
  decimalAux_digits _ _ _ (by simp)

theorem decimalAux_value : ∀ (fuel n : Nat) (acc : List Nat), n < fuel →
    List.foldl (fun a d => 10 * a + (d - 48)) 0 (decimalAux fuel n acc)
      = List.foldl (fun a d => 10 * a + (d - 48)) n acc := by
  intro fuel
  induction fuel with
  | zero => intro n acc h; omega
  | succ fuel ih =>
    intro n acc h
    unfold decimalAux
    split
    · rename_i h0
      have : n % 10 = n := Nat.mod_eq_of_lt (by omega)
      simp [List.foldl, this]
    · rename_i h0
      rw [ih (n / 10) _ (by omega)]
      simp only [List.foldl]
      congr 1
      omega

theorem digits_value_decimal (n : Nat) : digits_value (decimal n) = n := by
  unfold digits_value decimal
  rw [decimalAux_value _ _ _ (Nat.lt_succ_self n)]
  rfl

theorem takeWhile_digits (ds rest : List Nat) (h : ∀ d ∈ ds, 48 ≤ d ∧ d ≤ 57) :
    (ds ++ 13 :: rest).takeWhile (fun c => decide (48 ≤ c ∧ c ≤ 57)) = ds := by
  induction ds with
  | nil => simp [List.takeWhile]
  | cons d ds ih =>
    have hd := h d (List.mem_cons_self _ _)
    rw [List.cons_append, List.takeWhile_cons_of_pos (by simpa using hd)]
    rw [ih (fun e he => h e (List.mem_cons_of_mem _ he))]

/-! ### The rendered header, line by line -/

theorem ascii_request_line_end :
    ascii " HTTP/1.1\r\nHost: " = ascii " HTTP/1.1" ++ 13 :: 10 :: ascii "Host: " := by decide

theorem request_header_lines (path host : List Nat) (port n : Nat) (P : List Nat) :
    request_header path host port n ++ P
      = (ascii "POST " ++ path ++ ascii " HTTP/1.1") ++ 13 :: 10 ::
          lines_then ((ascii "Host: " ++ host ++ ascii ":" ++ decimal port) :: fixed_lines)
            (ascii "Content-Length: " ++ decimal n ++ 13 :: 10 :: 13 :: 10 :: P) := by
  have h2 : ascii "\r\n" = [13, 10] := by decide
  have h4 : ascii "\r\n\r\n" = [13, 10, 13, 10] := by decide
  have hl : lines_then ((ascii "Host: " ++ host ++ ascii ":" ++ decimal port) :: fixed_lines)
      (ascii "Content-Length: " ++ decimal n ++ 13 :: 10 :: 13 :: 10 :: P)
      = (ascii "Host: " ++ host ++ ascii ":" ++ decimal port) ++ 13 :: 10 ::
        (fixed_headers ++ (ascii "Content-Length: " ++ decimal n ++ 13 :: 10 :: 13 :: 10 :: P)) := by
    rw [fixed_headers_eq, ← lines_then_append]
    rfl
  rw [hl]
  unfold request_header
  rw [ascii_request_line_end, h2, h4]
  simp only [List.append_assoc, List.cons_append, List.nil_append]

theorem fixed_lines_no_cr : ∀ l ∈ fixed_lines, ∀ c ∈ l, c ≠ 13 := by decide

theorem fixed_lines_not_blank : ∀ l ∈ fixed_lines, differ [13, 10] l = true := by decide

theorem fixed_lines_not_content_length :
    ∀ l ∈ fixed_lines, differ (ascii "Content-Length: ") l = true := by decide

theorem ascii_no_cr_post : ∀ c ∈ ascii "POST ", c ≠ 13 := by decide
theorem ascii_no_cr_http : ∀ c ∈ ascii " HTTP/1.1", c ≠ 13 := by decide
theorem ascii_no_cr_host : ∀ c ∈ ascii "Host: ", c ≠ 13 := by decide
theorem ascii_no_cr_colon : ∀ c ∈ ascii ":", c ≠ 13 := by decide
theorem ascii_no_cr_content_length : ∀ c ∈ ascii "Content-Length: ", c ≠ 13 := by decide

theorem decimal_no_cr (n : Nat) : ∀ c ∈ decimal n, c ≠ 13 := by
  intro c hc
  have := decimal_digits n c hc
  omega

theorem request_line_no_cr (path : List Nat) (hp : ∀ c ∈ path, c ≠ 13) :
    ∀ c ∈ ascii "POST " ++ path ++ ascii " HTTP/1.1", c ≠ 13 := by
  intro c hc
  simp only [List.mem_append] at hc
  rcases hc with (hc | hc) | hc
  · exact ascii_no_cr_post c hc
  · exact hp c hc
  · exact ascii_no_cr_http c hc

theorem host_line_no_cr (host : List Nat) (port : Nat) (hh : ∀ c ∈ host, c ≠ 13) :
    ∀ c ∈ ascii "Host: " ++ host ++ ascii ":" ++ decimal port, c ≠ 13 := by
  intro c hc
  simp only [List.mem_append] at hc
  rcases hc with ((hc | hc) | hc) | hc
  · exact ascii_no_cr_host c hc
  · exact hh c hc
  · exact ascii_no_cr_colon c hc
  · exact decimal_no_cr port c hc

theorem header_lines_no_cr (host : List Nat) (port : Nat) (hh : ∀ c ∈ host, c ≠ 13) :
    ∀ l ∈ (ascii "Host: " ++ host ++ ascii ":" ++ decimal port) :: fixed_lines,
      ∀ c ∈ l, c ≠ 13 := by
  intro l hl
  rcases List.mem_cons.mp hl with rfl | hl
  · exact host_line_no_cr host port hh
  · exact fixed_lines_no_cr l hl

theorem host_line_differ (key host : List Nat) (port k : Nat) (hk : k ≠ 72) :
    differ (k :: key) (ascii "Host: " ++ host ++ ascii ":" ++ decimal port) = true := by
  have h : ascii "Host: " = 72 :: ascii "ost: " := by decide
  rw [h]
  simp [differ, hk]

/-- Dropping everything up to and including the first empty line of a rendered
request leaves the payload. -/
theorem strip_request_header (path host : List Nat) (port n : Nat) (P : List Nat)
    (hp : ∀ c ∈ path, c ≠ 13) (hh : ∀ c ∈ host, c ≠ 13) :
    strip_request_headers (request_header path host port n ++ P) = some P := by
  unfold strip_request_headers
  rw [request_header_lines, after_first_skip _ _ _ (request_line_no_cr path hp)]
  rw [after_first_lines [13, 10] _ _ (header_lines_no_cr host port hh)]
  · have hC : ascii "Content-Length: " = 67 :: ascii "ontent-Length: " := by decide
    have h1 : ([13, 10, 13, 10] : List Nat).isPrefixOf
        (13 :: 10 :: (ascii "Content-Length: " ++ decimal n ++ 13 :: 10 :: 13 :: 10 :: P))
          = false := by
      rw [hC]; simp [List.isPrefixOf]
    have h2 : ([13, 10, 13, 10] : List Nat).isPrefixOf
        (10 :: (ascii "Content-Length: " ++ decimal n ++ 13 :: 10 :: 13 :: 10 :: P))
          = false := by
      simp [List.isPrefixOf]
    rw [after_first_cons_of_not_isPrefixOf _ _ _ h1, after_first_cons_of_not_isPrefixOf _ _ _ h2]
    rw [after_first_skip [10, 13, 10] (ascii "Content-Length: " ++ decimal n)]
    · rw [after_first_of_isPrefixOf _ _ _ (by simp [List.isPrefixOf])]
      rfl
    · intro c hc
      rcases List.mem_append.mp hc with hc | hc
      · exact ascii_no_cr_content_length c hc
      · exact decimal_no_cr n c hc
  · intro l hl
    rcases List.mem_cons.mp hl with rfl | hl
    · exact host_line_differ _ _ _ _ (by decide)
    · exact fixed_lines_not_blank l hl

/-- The `Content-Length` read back from a rendered request is the `n` that was
rendered. -/
theorem read_content_length_request (path host : List Nat) (port n : Nat) (P : List Nat)
    (hp : ∀ c ∈ path, c ≠ 13) (hh : ∀ c ∈ host, c ≠ 13) :
    read_content_length (request_header path host port n ++ P) = some n := by
  have hkey : ascii "\r\nContent-Length: " = 13 :: 10 :: ascii "Content-Length: " := by decide
  have hC : ascii "Content-Length: " = 67 :: ascii "ontent-Length: " := by decide
  unfold read_content_length
  rw [request_header_lines, hkey, after_first_skip _ _ _ (request_line_no_cr path hp)]
  rw [after_first_lines _ _ _ (header_lines_no_cr host port hh)]
  · have hpre : (13 :: 10 :: ascii "Content-Length: ").isPrefixOf
        (13 :: 10 :: (ascii "Content-Length: " ++ decimal n ++ 13 :: 10 :: 13 :: 10 :: P))
          = true := by
      rw [List.isPrefixOf_iff_prefix]
      refine ⟨decimal n ++ 13 :: 10 :: 13 :: 10 :: P, ?_⟩
      simp
    rw [after_first_of_isPrefixOf _ _ _ hpre]
    have hdrop : (13 :: 10 :: (ascii "Content-Length: " ++ decimal n ++ 13 :: 10 :: 13 :: 10 :: P)).drop
        (13 :: 10 :: ascii "Content-Length: ").length = decimal n ++ 13 :: 10 :: 13 :: 10 :: P := by
      have : 13 :: 10 :: (ascii "Content-Length: " ++ decimal n ++ 13 :: 10 :: 13 :: 10 :: P)
          = (13 :: 10 :: ascii "Content-Length: ") ++ (decimal n ++ 13 :: 10 :: 13 :: 10 :: P) := by
        simp
      rw [this, List.drop_left]
    rw [hdrop, Option.map_some', takeWhile_digits _ _ (decimal_digits n), digits_value_decimal]
  · intro l hl
    rcases List.mem_cons.mp hl with rfl | hl
    · rw [hC]; exact host_line_differ _ _ _ _ (by decide)
    · exact fixed_lines_not_content_length l hl

/-! ### The request envelope: C1, C2, C3 -/

theorem send_data_header (path host : List Nat) (port n : Nat) (hport : port < 65536)
    (hn : n < 2 ^ 31) :
    GET_REQUEST_FORMAT path host ((port % 65536 : Nat) : Int) (to_int n)
      = request_header path host port n := by
  rw [to_int_of_lt hn, Nat.mod_eq_of_lt hport, GET_REQUEST_FORMAT_eq]

set_option maxRecDepth 100000 in
theorem length_request_header (path host : List Nat) (port n : Nat) :
    (request_header path host port n).length
      = path.length + host.length + (decimal port).length + (decimal n).length + 365 := by
  have h1 : (ascii "POST ").length = 5 := by decide
  have h2 : (ascii " HTTP/1.1\r\nHost: ").length = 17 := by decide
  have h3 : (ascii ":").length = 1 := by decide
  have h4 : (ascii "\r\n").length = 2 := by decide
  have h5 : fixed_headers.length = 320 := by decide
  have h6 : (ascii "Content-Length: ").length = 16 := by decide
  have h7 : (ascii "\r\n\r\n").length = 4 := by decide
  simp only [request_header, List.length_append, h1, h2, h3, h4, h5, h6, h7]
  omega

/-- The buffer written when the header is stored whole and the payload fits
behind it. -/
theorem send_data_request (path host : List Nat) (port : Nat) (P : List Nat)
    (hport : port < 65536)
    (hhdr : (request_header path host port P.length).length < MAX_REQUEST_SIZE)
    (hfit : (request_header path host port P.length).length + P.length
      ≤ MAX_REQUEST_SIZE + 1) :
    _tls_cli_send_data ⟨path, host, port⟩ (some P) P.length
      = WriteCall.bytes (request_header path host port P.length ++ P) := by
  have hM : MAX_REQUEST_SIZE = 32768 := rfl
  have hn : P.length < 2 ^ 31 := by omega
  have hq := send_data_header path host port P.length hport hn
  have h := send_data_in_bounds ⟨path, host, port⟩ P (by rw [hq]; exact hhdr)
    (by rw [hq]; exact hfit)
  rw [h, hq]

/-- C1 (amended): when the rendered header is shorter than `MAX_REQUEST_SIZE`
(so that `mbedtls_snprintf` stores it whole) and header plus payload are at
most the `MAX_REQUEST_SIZE + 1` allocated bytes, the buffer handed to
`uv_mbed_write` is exactly the request line, the `Host` line, the fixed header
lines, `Content-Length: n`, the empty line and the payload, nothing else. -/
theorem C1_send_buffer_is_header_then_payload (path host : List Nat) (port : Nat)
    (P : List Nat) (hport : port < 65536)
    (hhdr : (request_header path host port P.length).length < MAX_REQUEST_SIZE)
    (hfit : (request_header path host port P.length).length + P.length
      ≤ MAX_REQUEST_SIZE + 1) :
    _tls_cli_send_data ⟨path, host, port⟩ (some P) P.length
      = WriteCall.bytes
          (ascii "POST " ++ path ++ ascii " HTTP/1.1\r\nHost: " ++ host ++ ascii ":"
            ++ decimal port ++ ascii "\r\n" ++ fixed_headers ++ ascii "Content-Length: "
            ++ decimal P.length ++ ascii "\r\n\r\n" ++ P) :=
  send_data_request path host port P hport hhdr hfit

set_option maxRecDepth 100000 in
/-- C1, at the input of the scenario: path `/path`, host `example.com`, port 443
and payload `hello`. -/
theorem C1_send_buffer_witness :
    (443 < 65536
      ∧ (request_header (ascii "/path") (ascii "example.com") 443 (ascii "hello").length).length
          < MAX_REQUEST_SIZE
      ∧ (request_header (ascii "/path") (ascii "example.com") 443 (ascii "hello").length).length
          + (ascii "hello").length ≤ MAX_REQUEST_SIZE + 1)
    ∧ _tls_cli_send_data ⟨ascii "/path", ascii "example.com", 443⟩ (some (ascii "hello"))
        (ascii "hello").length
      = WriteCall.bytes
          (ascii "POST " ++ ascii "/path" ++ ascii " HTTP/1.1\r\nHost: " ++ ascii "example.com"
            ++ ascii ":" ++ decimal 443 ++ ascii "\r\n" ++ fixed_headers
            ++ ascii "Content-Length: " ++ decimal (ascii "hello").length ++ ascii "\r\n\r\n"
            ++ ascii "hello") :=
  ⟨by decide, C1_send_buffer_is_header_then_payload (ascii "/path") (ascii "example.com") 443
    (ascii "hello") (by decide) (by decide) (by decide)⟩

theorem getLast?_request_header (path host : List Nat) (port n : Nat) :
    (request_header path host port n).getLast? = some 10 := by
  have h4 : ascii "\r\n\r\n" = [13, 10, 13, 10] := by decide
  unfold request_header
  rw [h4, List.getLast?_append]
  rfl

/-- C1 as stated fails: a header of exactly `MAX_REQUEST_SIZE` bytes with an empty
payload fits the request buffer, yet the buffer written is not the header: its
last byte is the NUL of `mbedtls_snprintf`, not the LF that ends the header. -/
theorem C1_counterexample :
    (request_header (List.replicate 32401 97) [] 0 0).length + ([] : List Nat).length
        ≤ MAX_REQUEST_SIZE
      ∧ _tls_cli_send_data ⟨List.replicate 32401 97, [], 0⟩ (some []) 0
        ≠ WriteCall.bytes (request_header (List.replicate 32401 97) [] 0 0 ++ []) := by
  have hM : MAX_REQUEST_SIZE = 32768 := rfl
  have hd : (decimal 0).length = 1 := by decide
  have hlen : (request_header (List.replicate 32401 97) [] 0 0).length = 32768 := by
    rw [length_request_header, List.length_replicate, hd]
    rfl
  have hq := send_data_header (List.replicate 32401 97) [] 0 0 (by decide) (by decide)
  refine ⟨by rw [hlen, hM]; decide, ?_⟩
  rw [send_data_truncated ⟨List.replicate 32401 97, [], 0⟩ (by rw [hq, hlen, hM])]
  intro h
  have h1 := congrArg (fun w => match w with
    | WriteCall.bytes o => o.getLast?
    | WriteCall.overrun _ => none) h
  simp only [List.append_nil] at h1
  rw [getLast?_request_header, List.getLast?_append] at h1
  exact absurd h1 (by decide)

/-- A payload longer than `MAX_REQUEST_SIZE` always overruns the request buffer:
no path of `_tls_cli_send_data` rejects it. -/
theorem send_data_oversize (config : server_config) (P : List Nat)
    (h : MAX_REQUEST_SIZE < P.length) :
    ∃ len, _tls_cli_send_data config (some P) P.length = WriteCall.overrun len := by
  have hpos := length_GET_REQUEST_FORMAT_pos config.over_tls_path config.over_tls_server_domain
      ((config.remote_port % 65536 : Nat) : Int) (to_int P.length)
  exact ⟨_, send_data_overrun config P (by omega) (by omega)⟩

theorem send_data_oversize_scenario (P : List Nat) (hP : P.length = 0x8001) :
    _tls_cli_send_data ⟨ascii "/path", ascii "example.com", 443⟩ (some P) 0x8001
      = WriteCall.overrun 33158 := by
  have hM : MAX_REQUEST_SIZE = 32768 := rfl
  have h := send_data_overrun ⟨ascii "/path", ascii "example.com", 443⟩ P (by omega) (by
      have := length_GET_REQUEST_FORMAT_pos (ascii "/path") (ascii "example.com")
        ((443 % 65536 : Nat) : Int) (to_int P.length)
      show MAX_REQUEST_SIZE + 1 < (GET_REQUEST_FORMAT (ascii "/path") (ascii "example.com")
        ((443 % 65536 : Nat) : Int) (to_int P.length)).length + P.length
      omega)
  rw [hP] at h
  have e : to_unsigned (((GET_REQUEST_FORMAT (ascii "/path") (ascii "example.com")
        ((443 % 65536 : Nat) : Int) (to_int 0x8001)).length : Int) + to_int 0x8001) = 33158 := by
    rw [send_data_header _ _ _ _ (by decide) (by decide), length_request_header,
      to_int_of_lt (by decide)]
    decide
  rw [h]
  exact congrArg WriteCall.overrun e

/-- C2 (the code at the failing input): for a payload of `MAX_REQUEST_SIZE + 1`
bytes the send is not rejected: the `memcpy` runs past the request buffer and
`uv_mbed_write` is called with a length of 33158 bytes. -/
theorem C2_oversize_payload_is_written :
    _tls_cli_send_data ⟨ascii "/path", ascii "example.com", 443⟩
        (some (List.replicate 0x8001 0)) 0x8001
      = WriteCall.overrun 33158 :=
  send_data_oversize_scenario (List.replicate 0x8001 0) (List.length_replicate _ _)

/-- C3 (amended): when the header is shorter than `MAX_REQUEST_SIZE`, header plus
payload are at most `MAX_REQUEST_SIZE + 1` bytes and neither path nor host holds
a CR or LF, the bytes written are the header followed by the payload, their
first empty line is the one that ends the header (dropping everything through
it leaves exactly the payload), and the `Content-Length` read back is the
payload length. -/
theorem C3_frame_round_trip (path host : List Nat) (port : Nat) (P : List Nat)
    (hport : port < 65536)
    (hp : ∀ c ∈ path, c ≠ 13 ∧ c ≠ 10) (hh : ∀ c ∈ host, c ≠ 13 ∧ c ≠ 10)
    (hhdr : (request_header path host port P.length).length < MAX_REQUEST_SIZE)
    (hfit : (request_header path host port P.length).length + P.length
      ≤ MAX_REQUEST_SIZE + 1) :
    ∃ w, _tls_cli_send_data ⟨path, host, port⟩ (some P) P.length = WriteCall.bytes w
      ∧ w = request_header path host port P.length ++ P
      ∧ strip_request_headers w = some P
      ∧ read_content_length w = some P.length := by
  refine ⟨request_header path host port P.length ++ P, ?_, rfl, ?_, ?_⟩
  · exact send_data_request path host port P hport hhdr hfit
  · exact strip_request_header path host port P.length P (fun c hc => (hp c hc).1)
      (fun c hc => (hh c hc).1)
  · exact read_content_length_request path host port P.length P (fun c hc => (hp c hc).1)
      (fun c hc => (hh c hc).1)

set_option maxRecDepth 100000 in
/-- C3, at the input of the scenario. -/
theorem C3_frame_round_trip_witness :
    ((∀ c ∈ ascii "/path", c ≠ 13 ∧ c ≠ 10) ∧ (∀ c ∈ ascii "example.com", c ≠ 13 ∧ c ≠ 10)
      ∧ (request_header (ascii "/path") (ascii "example.com") 443 (ascii "hello").length).length
          + (ascii "hello").length ≤ MAX_REQUEST_SIZE + 1)
    ∧ ∃ w, _tls_cli_send_data ⟨ascii "/path", ascii "example.com", 443⟩ (some (ascii "hello"))
          (ascii "hello").length = WriteCall.bytes w
        ∧ w = request_header (ascii "/path") (ascii "example.com") 443 (ascii "hello").length
            ++ ascii "hello"
        ∧ strip_request_headers w = some (ascii "hello")
        ∧ read_content_length w = some (ascii "hello").length :=
  ⟨by decide, C3_frame_round_trip (ascii "/path") (ascii "example.com") 443 (ascii "hello")
    (by decide) (by decide) (by decide) (by decide) (by decide)⟩

theorem send_data_full_payload (P : List Nat) (hP : P.length = 0x8000) :
    _tls_cli_send_data ⟨ascii "/path", ascii "example.com", 443⟩ (some P) 0x8000
      = WriteCall.overrun 33157 := by
  have hM : MAX_REQUEST_SIZE = 32768 := rfl
  have h := send_data_overrun ⟨ascii "/path", ascii "example.com", 443⟩ P (by omega) (by
      have := length_GET_REQUEST_FORMAT_pos (ascii "/path") (ascii "example.com")
        ((443 % 65536 : Nat) : Int) (to_int P.length)
      show MAX_REQUEST_SIZE + 1 < (GET_REQUEST_FORMAT (ascii "/path") (ascii "example.com")
        ((443 % 65536 : Nat) : Int) (to_int P.length)).length + P.length
      omega)
  rw [hP] at h
  have e : to_unsigned (((GET_REQUEST_FORMAT (ascii "/path") (ascii "example.com")
        ((443 % 65536 : Nat) : Int) (to_int 0x8000)).length : Int) + to_int 0x8000) = 33157 := by
    rw [send_data_header _ _ _ _ (by decide) (by decide), length_request_header,
      to_int_of_lt (by decide)]
    decide
  rw [h]
  exact congrArg WriteCall.overrun e

/-- C3 as stated fails: a payload of `MAX_REQUEST_SIZE` bytes is within the
capacity the claim names, path and host hold no CR or LF, and yet nothing is
written that a server could strip: header and payload together are 33157
bytes, the `memcpy` runs past the `MAX_REQUEST_SIZE + 1` bytes of the request
buffer. -/
theorem C3_counterexample :
    (List.replicate 0x8000 0).length ≤ MAX_REQUEST_SIZE
    ∧ (∀ c ∈ ascii "/path", c ≠ 13 ∧ c ≠ 10) ∧ (∀ c ∈ ascii "example.com", c ≠ 13 ∧ c ≠ 10)
    ∧ _tls_cli_send_data ⟨ascii "/path", ascii "example.com", 443⟩
        (some (List.replicate 0x8000 0)) 0x8000 = WriteCall.overrun 33157
    ∧ ¬ ∃ w, _tls_cli_send_data ⟨ascii "/path", ascii "example.com", 443⟩
        (some (List.replicate 0x8000 0)) 0x8000 = WriteCall.bytes w := by
  have h := send_data_full_payload (List.replicate 0x8000 0) (List.length_replicate _ _)
  refine ⟨?_, by decide, by decide, h, ?_⟩
  · rw [List.length_replicate]; decide
  · rintro ⟨w, hw⟩
    rw [h] at hw
    exact WriteCall.noConfusion hw

set_option maxRecDepth 100000 in
/-- The request of the scenario: path `/path`, host `example.com`, port 443,
payload `hello`. -/
theorem send_data_scenario :
    _tls_cli_send_data ⟨ascii "/path", ascii "example.com", 443⟩ (some (ascii "hello")) 5
      = WriteCall.bytes (request_header (ascii "/path") (ascii "example.com") 443 5
          ++ ascii "hello") :=
  send_data_request (ascii "/path") (ascii "example.com") 443 (ascii "hello") (by decide)
    (by decide) (by decide)

/-! ### The live design: C4, C6, C7 -/

/-- C4 (amended): for a received chunk made of a header block, the empty line
and body bytes `B`, `_mbed_data_received_cb` calls the tunnel's `on_data_coming`
exactly once, with the whole chunk as received: the header bytes are part of
what the tunnel gets, the callback discards nothing. -/
theorem C4_on_data_gets_whole_chunk (tunnel : tunnel_ctx) (H B slack : List Nat)
    (ht : tunnel.tunnel_tls_on_data_coming = true) :
    _mbed_data_received_cb tunnel ((H ++ [13, 10, 13, 10] ++ B).length : Int)
        (H ++ [13, 10, 13, 10] ++ B ++ slack)
      = [Action.on_data_coming (H ++ [13, 10, 13, 10] ++ B), Action.free_base] := by
  unfold _mbed_data_received_cb
  have hpos : ((H ++ [13, 10, 13, 10] ++ B).length : Int) > 0 := by
    simp only [List.length_append, List.length_cons, List.length_nil]
    omega
  rw [if_pos hpos, if_pos ht, Int.toNat_ofNat, List.take_left' rfl]

/-- C4, at the chunk of the scenario. -/
theorem C4_on_data_witness :
    (⟨true, true, true⟩ : tunnel_ctx).tunnel_tls_on_data_coming = true
      ∧ _mbed_data_received_cb ⟨true, true, true⟩
          ((ascii "HTTP/1.1 200 OK\r\nContent-Type: text/html" ++ [13, 10, 13, 10]
            ++ ascii "PAYLOAD").length : Int)
          (ascii "HTTP/1.1 200 OK\r\nContent-Type: text/html" ++ [13, 10, 13, 10]
            ++ ascii "PAYLOAD" ++ [])
        = [Action.on_data_coming (ascii "HTTP/1.1 200 OK\r\nContent-Type: text/html"
            ++ [13, 10, 13, 10] ++ ascii "PAYLOAD"), Action.free_base] :=
  ⟨rfl, C4_on_data_gets_whole_chunk ⟨true, true, true⟩
    (ascii "HTTP/1.1 200 OK\r\nContent-Type: text/html") (ascii "PAYLOAD") [] rfl⟩

/-- C4 as stated fails: for the chunk of the scenario `on_data_coming` gets the
51 bytes received, status line and header included, and not the 7 bytes
`PAYLOAD`. -/
theorem C4_counterexample :
    _mbed_data_received_cb ⟨true, true, true⟩ 51
        (ascii "HTTP/1.1 200 OK\r\nContent-Type: text/html\r\n\r\nPAYLOAD")
      = [Action.on_data_coming
          (ascii "HTTP/1.1 200 OK\r\nContent-Type: text/html\r\n\r\nPAYLOAD"), Action.free_base]
    ∧ _mbed_data_received_cb ⟨true, true, true⟩ 51
        (ascii "HTTP/1.1 200 OK\r\nContent-Type: text/html\r\n\r\nPAYLOAD")
      ≠ [Action.on_data_coming (ascii "PAYLOAD"), Action.free_base] := by
  decide

theorem count_shutting_down_append (a b : List Action) :
    count_shutting_down (a ++ b) = count_shutting_down a + count_shutting_down b := by
  simp [count_shutting_down]

theorem step_tunnel (s : Session) (e : Event) : (s.step e).tunnel = s.tunnel := by
  cases e <;> simp only [Session.step] <;> first | rfl | (split <;> rfl)

theorem run_tunnel (es : List Event) : ∀ s : Session, (s.run es).tunnel = s.tunnel := by
  induction es with
  | nil => intro s; rfl
  | cons e es ih =>
    intro s
    show ((s.step e).run es).tunnel = s.tunnel
    rw [ih, step_tunnel]

/-- The completed close holds the `free(ctx)` of `_mbed_close_done_cb`. -/
theorem free_ctx_mem_close (tunnel : tunnel_ctx) :
    Action.free_ctx ∈ Action.uv_mbed_close :: _mbed_close_done_cb tunnel := by
  simp [_mbed_close_done_cb]

/-- On a live session an event that reports a failure has the session freed,
by the close it requests, and no other event has. -/
theorem step_live_freed (s : Session) (e : Event) (hl : s.freed = false) :
    (s.step e).freed = e.is_failure := by
  cases e with
  | connect_done status =>
    simp only [Session.step, hl, Bool.false_eq_true, if_false, Event.is_failure]
    by_cases h : status < 0
    · simp [h, _mbed_connect_done_cb, complete_close, _mbed_close_done_cb]
    · simp only [h, _mbed_connect_done_cb, if_false, decide_False, decide_eq_false_iff_not]
      split <;> simp [complete_close]
  | data_received nread base =>
    simp only [Session.step, hl, Bool.false_eq_true, if_false, Event.is_failure]
    by_cases h : nread < 0
    · have h' : ¬ nread > 0 := by omega
      simp [h, h', _mbed_data_received_cb, complete_close, _mbed_close_done_cb]
    · by_cases h0 : nread > 0
      · simp only [h, h0, _mbed_data_received_cb, if_true, decide_False,
          decide_eq_false_iff_not]
        split <;> simp [complete_close]
      · simp [h, h0, _mbed_data_received_cb, complete_close]
  | write_done status =>
    simp only [Session.step, hl, Bool.false_eq_true, if_false, Event.is_failure]
    by_cases h : status < 0 <;>
      simp [h, _mbed_write_done_cb, complete_close, _mbed_close_done_cb]
  | send_data data size =>
    simp [Session.step, hl, Event.is_failure]

/-- On a live session each event that reports a failure adds one call of
`on_shutting_down`, each other event adds none. -/
theorem count_shutting_down_step (s : Session) (e : Event) (hl : s.freed = false)
    (ht : s.tunnel.tunnel_tls_on_shutting_down = true) :
    count_shutting_down (s.step e).trace
      = count_shutting_down s.trace + (if e.is_failure then 1 else 0) := by
  cases e with
  | connect_done status =>
    simp only [Session.step, hl, Bool.false_eq_true, if_false, count_shutting_down_append,
      Event.is_failure]
    by_cases h : status < 0 <;>
      simp [h, _mbed_connect_done_cb, complete_close, _mbed_close_done_cb, ht,
        count_shutting_down]
    split <;> simp
  | data_received nread base =>
    simp only [Session.step, hl, Bool.false_eq_true, if_false, count_shutting_down_append,
      Event.is_failure]
    by_cases h : nread < 0
    · have h' : ¬ nread > 0 := by omega
      simp [h, h', _mbed_data_received_cb, complete_close, _mbed_close_done_cb, ht,
        count_shutting_down]
    · by_cases h0 : nread > 0
      · simp only [h, h0, _mbed_data_received_cb, if_true]
        split <;> simp [complete_close, count_shutting_down]
      · simp [h, h0, _mbed_data_received_cb, complete_close, count_shutting_down]
  | write_done status =>
    simp only [Session.step, hl, Bool.false_eq_true, if_false, count_shutting_down_append,
      Event.is_failure]
    by_cases h : status < 0 <;>
      simp [h, _mbed_write_done_cb, complete_close, _mbed_close_done_cb, ht,
        count_shutting_down]
  | send_data data size =>
    simp [Session.step, count_shutting_down_append, Event.is_failure, count_shutting_down]

/-- Every event that reaches a freed session is a use after free: the session
stays freed, and no call of `on_shutting_down` is recorded for it. -/
theorem step_freed (s : Session) (e : Event) (hf : s.freed = true) :
    (s.step e).use_after_free = s.use_after_free + 1
    ∧ (s.step e).freed = true
    ∧ count_shutting_down (s.step e).trace = count_shutting_down s.trace := by
  cases e <;>
    simp [Session.step, hf, count_shutting_down_append, count_shutting_down]

/-- C7 (amended): in every state a session reaches from launch, whether or not
`_mbed_connect_done_cb` has reported success, a call of `tunnel_tls_send_data`
issues exactly one `uv_mbed_write`, with what `_tls_cli_send_data` builds: the
function looks at no state of the connection, the order of handshake and first
send is left to the tunnel. -/
theorem C7_send_always_writes (tunnel : tunnel_ctx) (config : server_config)
    (es : List Event) (data : Option (List Nat)) (size : Nat) :
    (((tls_client_launch tunnel config).run es).step (Event.send_data data size)).trace
      = ((tls_client_launch tunnel config).run es).trace
        ++ [Action.uv_mbed_write
            (_tls_cli_send_data ((tls_client_launch tunnel config).run es).config data size)]
    ∧ ((((tls_client_launch tunnel config).run es).step
          (Event.send_data data size)).trace.filter Action.is_write).length
      = (((tls_client_launch tunnel config).run es).trace.filter Action.is_write).length + 1 := by
  constructor
  · rfl
  · simp [Session.step, Action.is_write]

/-- C7 as stated fails: right after launch, before any connect-done, the
handshake has not completed, and a call of `tunnel_tls_send_data` with the
payload `hello` issues the TLS write of the framed request. -/
theorem C7_counterexample :
    (tls_client_launch ⟨true, true, true⟩
        ⟨ascii "/path", ascii "example.com", 443⟩).handshake_done = false
    ∧ ((tls_client_launch ⟨true, true, true⟩ ⟨ascii "/path", ascii "example.com", 443⟩).step
        (Event.send_data (some (ascii "hello")) 5)).trace
      = [Action.uv_mbed_connect,
         Action.uv_mbed_write (WriteCall.bytes
          (request_header (ascii "/path") (ascii "example.com") 443 5 ++ ascii "hello"))] := by
  refine ⟨rfl, ?_⟩
  show [Action.uv_mbed_connect] ++ [Action.uv_mbed_write
      (_tls_cli_send_data ⟨ascii "/path", ascii "example.com", 443⟩ (some (ascii "hello")) 5)] = _
  rw [send_data_scenario]
  rfl

/-! ### The worker-thread design: C5, C8, C9, C10 -/

theorem size_sub_incomplete (len : Nat) (h : len ≤ MAX_REQUEST_SIZE) :
    size_sub len (-2) = len + 2 := by
  have hM : MAX_REQUEST_SIZE = 32768 := rfl
  unfold size_sub
  have e : ((len : Int) - (-2)) = ((len + 2 : Nat) : Int) := by push_cast; omega
  rw [e, Int.emod_eq_of_lt (by omega) (by omega), Int.toNat_ofNat]

/-- The notification built for a chunk the parser reports as incomplete. -/
theorem new_state_ctx_incomplete (phr : List Nat → Int) (buf : List Nat) (hne : buf ≠ [])
    (hlen : buf.length ≤ MAX_REQUEST_SIZE) (hinc : phr buf = -2) :
    new_state_ctx phr tls_cli_state.tls_state_data_coming (some buf) buf.length
      = ⟨some ⟨buf, -2, buf.length + 2⟩, tls_cli_state.tls_state_data_coming⟩ := by
  have h0 : buf.length ≠ 0 := fun h => hne (List.length_eq_zero.mp h)
  simp only [new_state_ctx, ne_eq, h0, not_false_eq_true, if_true, List.take_length, hinc,
    size_sub_incomplete _ hlen]

/-- One turn of the read loop on data that does not end in LF. -/
theorem read_loop_data (ecp : Bool) (phr : List Nat → Int) (buf : List Nat)
    (rest : List (Int × List Nat)) (hne : buf ≠ [])
    (hlf : buf.get? (buf.length - 1) ≠ some 10) :
    read_loop ecp phr ((((buf.length : Nat) : Int), buf) :: rest)
      = (WorkerStep.ssl_read (buf.length : Nat) :: WorkerStep.async_send
            (new_state_ctx phr tls_cli_state.tls_state_data_coming (some buf) buf.length)
          :: (read_loop ecp phr rest).1, (read_loop ecp phr rest).2) := by
  have h0 : 0 < buf.length := List.length_pos.mpr hne
  have h1 : ¬ ((buf.length : Int) = MBEDTLS_ERR_SSL_CRYPTO_IN_PROGRESS) := by
    unfold MBEDTLS_ERR_SSL_CRYPTO_IN_PROGRESS; omega
  have h2 : ¬ ((buf.length : Int) = MBEDTLS_ERR_SSL_WANT_READ) := by
    unfold MBEDTLS_ERR_SSL_WANT_READ; omega
  have h3 : ¬ ((buf.length : Int) = MBEDTLS_ERR_SSL_WANT_WRITE) := by
    unfold MBEDTLS_ERR_SSL_WANT_WRITE; omega
  have h4 : ¬ ((buf.length : Int) ≤ 0) := by omega
  simp only [read_loop, h1, h2, h3, h4, and_false, or_self, if_false, Int.toNat_ofNat, hlf]

/-- One turn of the read loop on the result zero. -/
theorem read_loop_zero (ecp : Bool) (phr : List Nat → Int) (buf : List Nat)
    (rest : List (Int × List Nat)) :
    read_loop ecp phr ((0, buf) :: rest) = ([WorkerStep.ssl_read 0], LoopExit.reconnect) := by
  simp [read_loop, MBEDTLS_ERR_SSL_CRYPTO_IN_PROGRESS, MBEDTLS_ERR_SSL_WANT_READ,
    MBEDTLS_ERR_SSL_WANT_WRITE, MBEDTLS_ERR_SSL_PEER_CLOSE_NOTIFY]

/-- C5 (the code whenever the parser reports an incomplete header): a header
split across two reads. The first fragment is not held back: the notification
built for it carries a buffer that starts 2 bytes before the received bytes and
is 2 bytes longer than what was received, and the tunnel's `on_data_coming` is
called for it, and called again for the second fragment. -/
theorem C5_incomplete_header_is_forwarded (ecp : Bool) (phr : List Nat → Int)
    (tunnel : tunnel_ctx) (frag1 frag2 : List Nat) (closes : List Int)
    (ht : tunnel.tunnel_tls_on_data_coming = true)
    (h1 : frag1 ≠ []) (h2 : frag2 ≠ [])
    (hlen : frag1.length ≤ MAX_REQUEST_SIZE)
    (hlf1 : frag1.get? (frag1.length - 1) ≠ some 10)
    (hlf2 : frag2.get? (frag2.length - 1) ≠ some 10)
    (hinc : phr frag1 = -2) :
    (deliveries tunnel (read_and_teardown ecp phr
        [((frag1.length : Nat), frag1), ((frag2.length : Nat), frag2), (0, [])] closes).1).take 2
      = [Delivery.on_data_coming (some ⟨frag1, -2, frag1.length + 2⟩),
         Delivery.on_data_coming (some ⟨frag2, phr frag2, size_sub frag2.length (phr frag2)⟩)]
    ∧ (buffer_t.bytes ⟨frag1, -2, frag1.length + 2⟩) = none := by
  have h20 : frag2.length ≠ 0 := fun h => h2 (List.length_eq_zero.mp h)
  constructor
  · unfold read_and_teardown
    rw [read_loop_data ecp phr frag1 _ h1 hlf1, read_loop_data ecp phr frag2 _ h2 hlf2,
      read_loop_zero, new_state_ctx_incomplete phr frag1 h1 hlen hinc]
    simp [deliveries, dispatch, ht, new_state_ctx, h20]
  · simp [buffer_t.bytes]

/-- C5, at a header split inside `Content-Type`, with the parser of the spec. -/
theorem C5_incomplete_header_witness :
    (deliveries ⟨true, true, true⟩ (read_and_teardown true phr_parse_response
        [(((ascii "HTTP/1.1 200 OK\r\nContent-Ty").length : Nat),
            ascii "HTTP/1.1 200 OK\r\nContent-Ty"),
         (((ascii "pe: text/html\r\n\r\nPAYLOAD").length : Nat),
            ascii "pe: text/html\r\n\r\nPAYLOAD"), (0, [])] [0]).1).take 2
      = [Delivery.on_data_coming (some ⟨ascii "HTTP/1.1 200 OK\r\nContent-Ty", -2, (ascii "HTTP/1.1 200 OK\r\nContent-Ty").length + 2⟩),
         Delivery.on_data_coming (some ⟨ascii "pe: text/html\r\n\r\nPAYLOAD", phr_parse_response (ascii "pe: text/html\r\n\r\nPAYLOAD"), size_sub (ascii "pe: text/html\r\n\r\nPAYLOAD").length (phr_parse_response (ascii "pe: text/html\r\n\r\nPAYLOAD"))⟩)]
    ∧ (buffer_t.bytes ⟨ascii "HTTP/1.1 200 OK\r\nContent-Ty", -2, (ascii "HTTP/1.1 200 OK\r\nContent-Ty").length + 2⟩) = none :=
  C5_incomplete_header_is_forwarded true phr_parse_response ⟨true, true, true⟩
    (ascii "HTTP/1.1 200 OK\r\nContent-Ty") (ascii "pe: text/html\r\n\r\nPAYLOAD") [0]
    rfl (by decide) (by decide) (by decide) (by decide) (by decide) (by decide)

/-- Along a run of the bridge that hits no assertion, every notification stored
was either taken or is the one in the slot. -/
theorem bridge_run_invariant (phr : List Nat → Int) (tunnel : tunnel_ctx)
    (ops : List BridgeOp) : ∀ (b b1 : Bridge),
    b.stored = b.taken + (if b.slot.isSome then 1 else 0) →
    Bridge.run phr tunnel b ops = some b1 →
    b1.stored = b1.taken + (if b1.slot.isSome then 1 else 0) := by
  induction ops with
  | nil =>
    intro b b1 hb hrun
    simp only [Bridge.run, Option.some.injEq] at hrun
    rw [← hrun]; exact hb
  | cons op ops ih =>
    intro b b1 hb hrun
    cases hstep : Bridge.step phr tunnel b op with
    | none => simp [Bridge.run, hstep] at hrun
    | some b2 =>
      simp only [Bridge.run, hstep] at hrun
      refine ih b2 b1 ?_ hrun
      cases op with
      | send state buf len =>
        cases hs : b.slot with
        | none =>
          simp only [Bridge.step, tls_cli_state_changed_async_send, hs, Option.some.injEq] at hstep
          rw [hs] at hb
          rw [← hstep]
          simp at hb ⊢
          omega
        | some p =>
          simp [Bridge.step, tls_cli_state_changed_async_send, hs] at hstep
      | notice =>
        cases hs : b.slot with
        | none => simp [Bridge.step, tls_cli_state_changed_notice_cb, hs] at hstep
        | some p =>
          simp only [Bridge.step, tls_cli_state_changed_notice_cb, hs, Option.some.injEq] at hstep
          rw [hs] at hb
          rw [← hstep]
          simp at hb ⊢
          omega

/-- C8: the notification slot holds at most one pending notification.
`tls_cli_state_changed_async_send` stores its notification when the slot is
empty and otherwise fails its assertion, the pending notification left in
place; `tls_cli_state_changed_notice_cb` empties the slot and calls exactly the
one tunnel callback that belongs to the state of the notification it took;
along every run of the two functions that hits no assertion the notifications
stored and not yet taken are the one in the slot, or none. -/
theorem C8_single_notification_slot (phr : List Nat → Int) (tunnel : tunnel_ctx)
    (hc : tunnel.tunnel_tls_on_connection_established = true)
    (hd : tunnel.tunnel_tls_on_data_coming = true)
    (hs : tunnel.tunnel_tls_on_shutting_down = true) :
    (∀ state buf len, tls_cli_state_changed_async_send phr none state buf len
        = Sent.stored (new_state_ctx phr state buf len))
    ∧ (∀ pending state buf len,
        tls_cli_state_changed_async_send phr (some pending) state buf len
          = Sent.assert_failed pending)
    ∧ (∀ data, tls_cli_state_changed_notice_cb tunnel
          (some { data := data, state := tls_cli_state.tls_state_connected })
        = some (none, [Delivery.on_connection_established]))
    ∧ (∀ data, tls_cli_state_changed_notice_cb tunnel
          (some { data := data, state := tls_cli_state.tls_state_data_coming })
        = some (none, [Delivery.on_data_coming data]))
    ∧ (∀ data, tls_cli_state_changed_notice_cb tunnel
          (some { data := data, state := tls_cli_state.tls_state_shutting_down })
        = some (none, [Delivery.on_shutting_down]))
    ∧ (∀ ops b, Bridge.run phr tunnel { slot := none, stored := 0, taken := 0, delivered := [] }
          ops = some b →
        b.stored - b.taken ≤ 1 ∧ b.stored = b.taken + (if b.slot.isSome then 1 else 0)) := by
  refine ⟨fun _ _ _ => rfl, fun _ _ _ _ => rfl, ?_, ?_, ?_, ?_⟩
  · intro data; simp [tls_cli_state_changed_notice_cb, dispatch, hc]
  · intro data; simp [tls_cli_state_changed_notice_cb, dispatch, hd]
  · intro data; simp [tls_cli_state_changed_notice_cb, dispatch, hs]
  · intro ops b hrun
    have h := bridge_run_invariant phr tunnel ops _ b (by simp) hrun
    refine ⟨?_, h⟩
    split at h <;> omega

/-- C8, for a tunnel with its three callbacks installed and the parser of the
spec. -/
theorem C8_single_notification_slot_witness :
    (∀ state buf len, tls_cli_state_changed_async_send phr_parse_response none state buf len
        = Sent.stored (new_state_ctx phr_parse_response state buf len))
    ∧ (∀ pending state buf len,
        tls_cli_state_changed_async_send phr_parse_response (some pending) state buf len
          = Sent.assert_failed pending)
    ∧ (∀ data, tls_cli_state_changed_notice_cb ⟨true, true, true⟩
          (some { data := data, state := tls_cli_state.tls_state_connected })
        = some (none, [Delivery.on_connection_established]))
    ∧ (∀ data, tls_cli_state_changed_notice_cb ⟨true, true, true⟩
          (some { data := data, state := tls_cli_state.tls_state_data_coming })
        = some (none, [Delivery.on_data_coming data]))
    ∧ (∀ data, tls_cli_state_changed_notice_cb ⟨true, true, true⟩
          (some { data := data, state := tls_cli_state.tls_state_shutting_down })
        = some (none, [Delivery.on_shutting_down]))
    ∧ (∀ ops b, Bridge.run phr_parse_response ⟨true, true, true⟩
          { slot := none, stored := 0, taken := 0, delivered := [] } ops = some b →
        b.stored - b.taken ≤ 1 ∧ b.stored = b.taken + (if b.slot.isSome then 1 else 0)) :=
  C8_single_notification_slot phr_parse_response ⟨true, true, true⟩ rfl rfl rfl

/-- Every chunk read goes through the parser: the notification sent for it
carries the region that starts at the offset the parser returned for this
chunk. -/
theorem read_loop_parses_every_chunk (ecp : Bool) (phr : List Nat → Int)
    (chunk1 chunk2 : List Nat) (rest : List (Int × List Nat))
    (h1 : chunk1 ≠ []) (h2 : chunk2 ≠ [])
    (hlf1 : chunk1.get? (chunk1.length - 1) ≠ some 10)
    (hlf2 : chunk2.get? (chunk2.length - 1) ≠ some 10) :
    (read_loop ecp phr
        (((chunk1.length : Nat), chunk1) :: ((chunk2.length : Nat), chunk2) :: rest)).1.take 4
      = [WorkerStep.ssl_read (chunk1.length : Nat),
         WorkerStep.async_send ⟨some ⟨chunk1, phr chunk1, size_sub chunk1.length (phr chunk1)⟩,
            tls_cli_state.tls_state_data_coming⟩,
         WorkerStep.ssl_read (chunk2.length : Nat),
         WorkerStep.async_send ⟨some ⟨chunk2, phr chunk2, size_sub chunk2.length (phr chunk2)⟩,
            tls_cli_state.tls_state_data_coming⟩] := by
  have h10 : chunk1.length ≠ 0 := fun h => h1 (List.length_eq_zero.mp h)
  have h20 : chunk2.length ≠ 0 := fun h => h2 (List.length_eq_zero.mp h)
  rw [read_loop_data ecp phr chunk1 _ h1 hlf1, read_loop_data ecp phr chunk2 _ h2 hlf2]
  simp [new_state_ctx, h10, h20]

/-- C9 (the code at the failing input): a response read in two chunks, the header
block and `AB`, then `CD`. The second chunk is passed through the parser as
well; the parser reports it incomplete, and the buffer sent to `on_data_coming`
for it is not the chunk: it starts 2 bytes before it and is 4 bytes long. -/
theorem C9_later_chunk_is_parsed_again :
    deliveries ⟨true, true, true⟩
      (tls_cli_main_work_thread true phr_parse_response
        { setup := 0, handshakes := [0],
          reads := [(21, ascii "HTTP/1.1 200 OK\r\n\r\nAB"), (2, ascii "CD"), (0, [])],
          closes := [0] }).1
      = [Delivery.on_connection_established,
         Delivery.on_data_coming
          (some ⟨ascii "HTTP/1.1 200 OK\r\n\r\nAB", 19, 2⟩),
         Delivery.on_data_coming (some ⟨ascii "CD", -2, 4⟩),
         Delivery.on_shutting_down]
    ∧ buffer_t.bytes ⟨ascii "CD", -2, 4⟩ = none := by
  decide

/-- Read results after which the loop goes round again are passed over. -/
theorem read_loop_append (ecp : Bool) (phr : List Nat → Int) (pre : List (Int × List Nat))
    (l : List (Int × List Nat)) (hpre : ∀ x ∈ pre, read_continues ecp x = true) :
    read_loop ecp phr (pre ++ l)
      = ((read_loop ecp phr pre).1 ++ (read_loop ecp phr l).1, (read_loop ecp phr l).2) := by
  induction pre with
  | nil => simp [read_loop]
  | cons x pre ih =>
    obtain ⟨ret, buf⟩ := x
    have hx := hpre (ret, buf) (List.mem_cons_self _ _)
    have ih' := ih (fun y hy => hpre y (List.mem_cons_of_mem _ hy))
    simp only [read_continues, Bool.or_eq_true, Bool.and_eq_true, decide_eq_true_eq,
      Bool.not_eq_true', decide_eq_false_iff_not] at hx
    rw [List.cons_append]
    by_cases c1 : ecp = true ∧ ret = MBEDTLS_ERR_SSL_CRYPTO_IN_PROGRESS
    · simp only [read_loop, if_pos c1, ih', List.cons_append]
    · by_cases c2 : ret = MBEDTLS_ERR_SSL_WANT_READ ∨ ret = MBEDTLS_ERR_SSL_WANT_WRITE
      · simp only [read_loop, if_neg c1, if_pos c2, ih', List.cons_append]
      · have hdata : 0 < ret ∧ ¬ buf.get? (ret.toNat - 1) = some 10 := by
          rcases hx with ((h | h) | h) | h
          · exact absurd h c1
          · exact absurd (Or.inl h) c2
          · exact absurd (Or.inr h) c2
          · exact h
        have c3 : ¬ ret ≤ 0 := by omega
        simp only [read_loop, if_neg c1, if_neg c2, if_neg c3, if_neg hdata.2, ih',
          List.cons_append]

/-- The steps of a stretch of read results that all go round again hold no
notification of `tls_state_shutting_down`. -/
theorem read_loop_no_shutting_down (ecp : Bool) (phr : List Nat → Int)
    (pre : List (Int × List Nat)) :
    ((read_loop ecp phr pre).1.filter WorkerStep.is_shutting_down).length = 0 := by
  induction pre with
  | nil => simp [read_loop]
  | cons x pre ih =>
    obtain ⟨ret, buf⟩ := x
    simp only [read_loop]
    split
    · simpa [WorkerStep.is_shutting_down] using ih
    · split
      · simpa [WorkerStep.is_shutting_down] using ih
      · split
        · split
          · simp [WorkerStep.is_shutting_down]
          · split <;> simp [WorkerStep.is_shutting_down]
        · have hst : ∀ b n, (new_state_ctx phr tls_cli_state.tls_state_data_coming b n).state
              = tls_cli_state.tls_state_data_coming := by
            intro b n
            unfold new_state_ctx
            split
            · split <;> rfl
            · rfl
          split
          · simp [WorkerStep.is_shutting_down, hst]
          · simpa [WorkerStep.is_shutting_down, hst] using ih

/-- The loop at `close_notify:` ends with the first result that is not the retry
code. -/
theorem close_notify_loop_retries (ws : List Int) (c : Int) (cs : List Int)
    (hws : ∀ w ∈ ws, w = MBEDTLS_ERR_SSL_WANT_WRITE) (hc : c ≠ MBEDTLS_ERR_SSL_WANT_WRITE) :
    close_notify_loop (ws ++ c :: cs)
      = (ws.map WorkerStep.ssl_close_notify ++ [WorkerStep.ssl_close_notify c], true) := by
  induction ws with
  | nil => simp [close_notify_loop, hc]
  | cons w ws ih =>
    have hw := hws w (List.mem_cons_self _ _)
    have ih' := ih (fun y hy => hws y (List.mem_cons_of_mem _ hy))
    rw [List.cons_append]
    simp only [close_notify_loop, hw, if_true, ih', List.map_cons, List.cons_append]

/-- C10 (amended): in the read loop of the worker thread, after any stretch of
results that make the loop go round again, the peer-close-notify code leads to
the close-notify exchange (`mbedtls_ssl_close_notify`, repeated while it returns
the retry code) and then to the notification of shutting down; a read result of
zero leaves by the label `reconnect` and any other result below zero that is no
retry code leaves by `exit`, both without a call of
`mbedtls_ssl_close_notify`, straight to the notification of shutting down. In
all three cases that notification is sent exactly once and no read follows the
one that returned the result. -/
theorem C10_read_results_end_in_shutting_down (ecp : Bool) (phr : List Nat → Int)
    (pre rest : List (Int × List Nat)) (buf : List Nat) (ws : List Int) (c : Int)
    (cs closes : List Int)
    (hpre : ∀ x ∈ pre, read_continues ecp x = true)
    (hws : ∀ w ∈ ws, w = MBEDTLS_ERR_SSL_WANT_WRITE) (hc : c ≠ MBEDTLS_ERR_SSL_WANT_WRITE) :
    (read_and_teardown ecp phr (pre ++ (MBEDTLS_ERR_SSL_PEER_CLOSE_NOTIFY, buf) :: rest)
        (ws ++ c :: cs)
      = ((read_loop ecp phr pre).1 ++ [WorkerStep.ssl_read MBEDTLS_ERR_SSL_PEER_CLOSE_NOTIFY]
          ++ (ws.map WorkerStep.ssl_close_notify ++ [WorkerStep.ssl_close_notify c])
          ++ [shutting_down_sent phr], true))
    ∧ (∀ r : Int, r ≤ 0 → r ≠ MBEDTLS_ERR_SSL_PEER_CLOSE_NOTIFY →
        r ≠ MBEDTLS_ERR_SSL_WANT_READ → r ≠ MBEDTLS_ERR_SSL_WANT_WRITE →
        ¬ (ecp = true ∧ r = MBEDTLS_ERR_SSL_CRYPTO_IN_PROGRESS) →
        read_and_teardown ecp phr (pre ++ (r, buf) :: rest) closes
          = ((read_loop ecp phr pre).1 ++ [WorkerStep.ssl_read r] ++ [shutting_down_sent phr],
              true))
    ∧ (∀ r : Int, r ≤ 0 → r ≠ MBEDTLS_ERR_SSL_WANT_READ → r ≠ MBEDTLS_ERR_SSL_WANT_WRITE →
        ¬ (ecp = true ∧ r = MBEDTLS_ERR_SSL_CRYPTO_IN_PROGRESS) →
        ((read_and_teardown ecp phr (pre ++ (r, buf) :: rest) (ws ++ c :: cs)).1.filter
          WorkerStep.is_shutting_down).length = 1) := by
  have hpcn : read_loop ecp phr ((MBEDTLS_ERR_SSL_PEER_CLOSE_NOTIFY, buf) :: rest)
      = ([WorkerStep.ssl_read MBEDTLS_ERR_SSL_PEER_CLOSE_NOTIFY], LoopExit.close_notify) := by
    simp [read_loop, MBEDTLS_ERR_SSL_CRYPTO_IN_PROGRESS, MBEDTLS_ERR_SSL_WANT_READ,
      MBEDTLS_ERR_SSL_WANT_WRITE, MBEDTLS_ERR_SSL_PEER_CLOSE_NOTIFY]
  have hother : ∀ r : Int, r ≤ 0 → r ≠ MBEDTLS_ERR_SSL_PEER_CLOSE_NOTIFY →
      r ≠ MBEDTLS_ERR_SSL_WANT_READ → r ≠ MBEDTLS_ERR_SSL_WANT_WRITE →
      ¬ (ecp = true ∧ r = MBEDTLS_ERR_SSL_CRYPTO_IN_PROGRESS) →
      (read_loop ecp phr ((r, buf) :: rest) = ([WorkerStep.ssl_read r], LoopExit.reconnect)
        ∨ read_loop ecp phr ((r, buf) :: rest) = ([WorkerStep.ssl_read r], LoopExit.exit)) := by
    intro r h0 h1 h2 h3 h4
    by_cases hz : r = 0 ∨ r = MBEDTLS_ERR_NET_CONN_RESET
    · left
      simp only [read_loop, if_neg h4, if_neg (not_or.mpr ⟨h2, h3⟩), if_pos h0, if_neg h1,
        if_pos hz]
    · right
      simp only [read_loop, if_neg h4, if_neg (not_or.mpr ⟨h2, h3⟩), if_pos h0, if_neg h1,
        if_neg hz]
  have hA : read_and_teardown ecp phr (pre ++ (MBEDTLS_ERR_SSL_PEER_CLOSE_NOTIFY, buf) :: rest)
        (ws ++ c :: cs)
      = ((read_loop ecp phr pre).1 ++ [WorkerStep.ssl_read MBEDTLS_ERR_SSL_PEER_CLOSE_NOTIFY]
          ++ (ws.map WorkerStep.ssl_close_notify ++ [WorkerStep.ssl_close_notify c])
          ++ [shutting_down_sent phr], true) := by
    unfold read_and_teardown
    rw [read_loop_append ecp phr pre _ hpre, hpcn, close_notify_loop_retries ws c cs hws hc]
    simp
  have hB : ∀ (cl : List Int) (r : Int), r ≤ 0 → r ≠ MBEDTLS_ERR_SSL_PEER_CLOSE_NOTIFY →
      r ≠ MBEDTLS_ERR_SSL_WANT_READ → r ≠ MBEDTLS_ERR_SSL_WANT_WRITE →
      ¬ (ecp = true ∧ r = MBEDTLS_ERR_SSL_CRYPTO_IN_PROGRESS) →
      read_and_teardown ecp phr (pre ++ (r, buf) :: rest) cl
        = ((read_loop ecp phr pre).1 ++ [WorkerStep.ssl_read r] ++ [shutting_down_sent phr],
            true) := by
    intro cl r h0 h1 h2 h3 h4
    unfold read_and_teardown
    rw [read_loop_append ecp phr pre _ hpre]
    rcases hother r h0 h1 h2 h3 h4 with h | h <;> rw [h]
  have hsd : WorkerStep.is_shutting_down (shutting_down_sent phr) = true := by
    simp [WorkerStep.is_shutting_down, shutting_down_sent, new_state_ctx]
  have hcn : (List.filter WorkerStep.is_shutting_down
      (ws.map WorkerStep.ssl_close_notify ++ [WorkerStep.ssl_close_notify c])).length = 0 := by
    rw [List.length_eq_zero, List.filter_eq_nil_iff]
    intro a ha
    simp only [List.mem_append, List.mem_map, List.mem_singleton] at ha
    rcases ha with ⟨w, -, rfl⟩ | rfl <;> simp [WorkerStep.is_shutting_down]
  have hone : (List.filter WorkerStep.is_shutting_down [shutting_down_sent phr]).length = 1 := by
    rw [List.filter_cons_of_pos hsd]
    rfl
  have hrd : ∀ r, (List.filter WorkerStep.is_shutting_down [WorkerStep.ssl_read r]).length
      = 0 := fun _ => rfl
  refine ⟨hA, hB closes, ?_⟩
  intro r h0 h2 h3 h4
  by_cases h1 : r = MBEDTLS_ERR_SSL_PEER_CLOSE_NOTIFY
  · rw [h1, hA]
    simp only [List.filter_append, List.length_append] at hcn
    simp only [List.filter_append, List.length_append, read_loop_no_shutting_down, hone, hrd]
    omega
  · rw [hB _ r h0 h1 h2 h3 h4]
    simp only [List.filter_append, List.length_append, read_loop_no_shutting_down, hone, hrd]

/-- C10 as stated fails for the read result zero: the thread goes from the read
straight to the notification of shutting down, `mbedtls_ssl_close_notify` is
not called. -/
theorem C10_counterexample :
    (tls_cli_main_work_thread true phr_parse_response
        { setup := 0, handshakes := [0], reads := [(0, [])], closes := [0] }).1
      = [WorkerStep.ssl_handshake 0,
         WorkerStep.async_send ⟨none, tls_cli_state.tls_state_connected⟩,
         WorkerStep.ssl_read 0,
         WorkerStep.async_send ⟨none, tls_cli_state.tls_state_shutting_down⟩]
    ∧ ((tls_cli_main_work_thread true phr_parse_response
        { setup := 0, handshakes := [0], reads := [(0, [])], closes := [0] }).1.filter
          WorkerStep.is_close_notify).length = 0 := by
  decide

/-- C10, at a run that reads `hello` after one retry and then gets the result;
the close-notify is retried once. -/
theorem C10_read_results_witness :
    ((∀ x ∈ [(MBEDTLS_ERR_SSL_WANT_READ, ([] : List Nat)), (5, ascii "hello")],
        read_continues true x = true)
      ∧ (0 : Int) ≠ MBEDTLS_ERR_SSL_WANT_WRITE)
    ∧ (read_and_teardown true phr_parse_response
        ([(MBEDTLS_ERR_SSL_WANT_READ, []), (5, ascii "hello")]
          ++ (MBEDTLS_ERR_SSL_PEER_CLOSE_NOTIFY, []) :: [(3, ascii "abc")])
        ([MBEDTLS_ERR_SSL_WANT_WRITE] ++ 0 :: [])
      = ((read_loop true phr_parse_response
            [(MBEDTLS_ERR_SSL_WANT_READ, []), (5, ascii "hello")]).1
          ++ [WorkerStep.ssl_read MBEDTLS_ERR_SSL_PEER_CLOSE_NOTIFY]
          ++ ([MBEDTLS_ERR_SSL_WANT_WRITE].map WorkerStep.ssl_close_notify
            ++ [WorkerStep.ssl_close_notify 0])
          ++ [shutting_down_sent phr_parse_response], true))
    ∧ (∀ r : Int, r ≤ 0 → r ≠ MBEDTLS_ERR_SSL_PEER_CLOSE_NOTIFY →
        r ≠ MBEDTLS_ERR_SSL_WANT_READ → r ≠ MBEDTLS_ERR_SSL_WANT_WRITE →
        ¬ (true = true ∧ r = MBEDTLS_ERR_SSL_CRYPTO_IN_PROGRESS) →
        read_and_teardown true phr_parse_response
          ([(MBEDTLS_ERR_SSL_WANT_READ, []), (5, ascii "hello")] ++ (r, []) :: [(3, ascii "abc")])
          []
          = ((read_loop true phr_parse_response
                [(MBEDTLS_ERR_SSL_WANT_READ, []), (5, ascii "hello")]).1
              ++ [WorkerStep.ssl_read r] ++ [shutting_down_sent phr_parse_response], true))
    ∧ (∀ r : Int, r ≤ 0 → r ≠ MBEDTLS_ERR_SSL_WANT_READ → r ≠ MBEDTLS_ERR_SSL_WANT_WRITE →
        ¬ (true = true ∧ r = MBEDTLS_ERR_SSL_CRYPTO_IN_PROGRESS) →
        ((read_and_teardown true phr_parse_response
          ([(MBEDTLS_ERR_SSL_WANT_READ, []), (5, ascii "hello")] ++ (r, []) :: [(3, ascii "abc")])
          ([MBEDTLS_ERR_SSL_WANT_WRITE] ++ 0 :: [])).1.filter
            WorkerStep.is_shutting_down).length = 1) :=
  ⟨by decide, C10_read_results_end_in_shutting_down true phr_parse_response
    [(MBEDTLS_ERR_SSL_WANT_READ, []), (5, ascii "hello")] [(3, ascii "abc")] []
    [MBEDTLS_ERR_SSL_WANT_WRITE] 0 [] [] (by decide) (by decide) (by decide)⟩

/-! ### The connect completion: C13 -/

theorem data_after_established_append (a b : List Action)
    (ha : data_after_established a = true)
    (hb : Action.on_connection_established ∈ a ∨ data_after_established b = true) :
    data_after_established (a ++ b) = true := by
  induction a with
  | nil =>
    rcases hb with hb | hb
    · simp at hb
    · simpa using hb
  | cons x a ih =>
    cases x with
    | on_connection_established => simp [data_after_established]
    | on_data_coming d => simp [data_after_established] at ha
    | _ =>
      simp only [List.cons_append, data_after_established] at ha ⊢
      apply ih ha
      rcases hb with hb | hb
      · left; simpa using hb
      · right; exact hb

/-- What the close adds to the trace holds neither a read nor a call of
`on_data_coming`. -/
theorem close_done_plain (tunnel : tunnel_ctx) :
    data_after_established (Action.uv_mbed_close :: _mbed_close_done_cb tunnel) = true
    ∧ Action.uv_mbed_read ∉ (Action.uv_mbed_close :: _mbed_close_done_cb tunnel) := by
  obtain ⟨c, d, sd⟩ := tunnel
  cases sd <;> simp [_mbed_close_done_cb, data_after_established]

/-- One admitted event keeps the order: `on_connection_established` is in the
trace as soon as `uv_mbed_read` is, and no `on_data_coming` comes before it. -/
theorem step_keeps_order (s : Session) (e : Event)
    (hc : s.tunnel.tunnel_tls_on_connection_established = true)
    (hok : data_after_established s.trace = true)
    (hrd : Action.uv_mbed_read ∈ s.trace → Action.on_connection_established ∈ s.trace)
    (hadm : s.admits e = true) :
    data_after_established (s.step e).trace = true
    ∧ (Action.uv_mbed_read ∈ (s.step e).trace →
        Action.on_connection_established ∈ (s.step e).trace) := by
  have hcl := close_done_plain s.tunnel
  cases e with
  | connect_done status =>
    by_cases hf : s.freed = true
    · simp only [Session.step, if_pos hf]
      exact ⟨hok, hrd⟩
    · simp only [Session.step, if_neg hf]
      by_cases h : status < 0
      · have hadd : complete_close s.tunnel (_mbed_connect_done_cb s.tunnel status)
            = Action.uv_mbed_close :: _mbed_close_done_cb s.tunnel := by
          simp [_mbed_connect_done_cb, h, complete_close]
        simp only [hadd]
        refine ⟨data_after_established_append _ _ hok (Or.inr hcl.1), ?_⟩
        intro hm
        rcases List.mem_append.mp hm with hm | hm
        · exact List.mem_append_left _ (hrd hm)
        · exact absurd hm hcl.2
      · have hadd : complete_close s.tunnel (_mbed_connect_done_cb s.tunnel status)
            = [Action.uv_mbed_read, Action.on_connection_established] := by
          simp [_mbed_connect_done_cb, h, hc, complete_close]
        simp only [hadd]
        refine ⟨data_after_established_append _ _ hok (Or.inr rfl), ?_⟩
        intro _
        simp
  | data_received nread base =>
    simp only [Session.admits, decide_eq_true_eq] at hadm
    have hest := hrd hadm
    by_cases hf : s.freed = true
    · simp only [Session.step, if_pos hf]
      exact ⟨hok, hrd⟩
    · simp only [Session.step, if_neg hf]
      exact ⟨data_after_established_append _ _ hok (Or.inl hest),
        fun _ => List.mem_append_left _ hest⟩
  | write_done status =>
    by_cases hf : s.freed = true
    · simp only [Session.step, if_pos hf]
      exact ⟨hok, hrd⟩
    · simp only [Session.step, if_neg hf]
      by_cases h : status < 0
      · have hadd : complete_close s.tunnel (_mbed_write_done_cb status)
            = Action.uv_mbed_close :: _mbed_close_done_cb s.tunnel := by
          simp [_mbed_write_done_cb, h, complete_close]
        simp only [hadd]
        refine ⟨data_after_established_append _ _ hok (Or.inr hcl.1), ?_⟩
        intro hm
        rcases List.mem_append.mp hm with hm | hm
        · exact List.mem_append_left _ (hrd hm)
        · exact absurd hm hcl.2
      · have hadd : complete_close s.tunnel (_mbed_write_done_cb status) = [] := by
          simp [_mbed_write_done_cb, h, complete_close]
        simp only [hadd, List.append_nil]
        exact ⟨hok, hrd⟩
  | send_data data size =>
    simp only [Session.step]
    refine ⟨data_after_established_append _ _ hok (Or.inr rfl), ?_⟩
    intro hm
    rcases List.mem_append.mp hm with hm | hm
    · exact List.mem_append_left _ (hrd hm)
    · simp at hm

/-- Over every admitted sequence of events the order is kept. -/
theorem run_keeps_order (es : List Event) : ∀ (s : Session),
    s.tunnel.tunnel_tls_on_connection_established = true →
    data_after_established s.trace = true →
    (Action.uv_mbed_read ∈ s.trace → Action.on_connection_established ∈ s.trace) →
    s.admissible es = true →
    data_after_established (s.run es).trace = true := by
  induction es with
  | nil => intro s _ hok _ _; exact hok
  | cons e es ih =>
    intro s hc hok hrd hadm
    simp only [Session.admissible, Bool.and_eq_true] at hadm
    have hstep := step_keeps_order s e hc hok hrd hadm.1
    show data_after_established ((s.step e).run es).trace = true
    exact ih (s.step e) (by rw [step_tunnel]; exact hc) hstep.1 hstep.2 hadm.2

/-- C13: `_mbed_connect_done_cb` leaves the connecting phase in one of two ways.
With a status that is not negative it starts reading and calls the tunnel's
`on_connection_established` once and requests no close; as the data callback
is handed over by that very `uv_mbed_read`, in every sequence of events that
can reach the session no `on_data_coming` comes before
`on_connection_established`. With a negative status it only requests the
close, whose completion calls `on_shutting_down`: no read is started and
`on_connection_established` is not called. -/
theorem C13_connect_done_two_ways (tunnel : tunnel_ctx) (config : server_config)
    (hc : tunnel.tunnel_tls_on_connection_established = true)
    (hs : tunnel.tunnel_tls_on_shutting_down = true) :
    (∀ status : Int, 0 ≤ status →
        _mbed_connect_done_cb tunnel status
          = [Action.uv_mbed_read, Action.on_connection_established])
    ∧ (∀ status : Int, status < 0 →
        _mbed_connect_done_cb tunnel status = [Action.uv_mbed_close]
        ∧ complete_close tunnel (_mbed_connect_done_cb tunnel status)
          = [Action.uv_mbed_close, Action.on_shutting_down, Action.uv_mbed_free,
              Action.free_ctx])
    ∧ (∀ es : List Event, (tls_client_launch tunnel config).admissible es = true →
        data_after_established ((tls_client_launch tunnel config).run es).trace = true) := by
  refine ⟨?_, ?_, ?_⟩
  · intro status h
    have h' : ¬ status < 0 := by omega
    simp [_mbed_connect_done_cb, h', hc]
  · intro status h
    simp [_mbed_connect_done_cb, h, complete_close, _mbed_close_done_cb, hs]
  · intro es hadm
    exact run_keeps_order es (tls_client_launch tunnel config) hc rfl (by
      intro hm
      simp [tls_client_launch] at hm) hadm

/-- C13, for a tunnel with its callbacks installed and the configuration of the
scenario. -/
theorem C13_connect_done_witness :
    (∀ status : Int, 0 ≤ status →
        _mbed_connect_done_cb ⟨true, true, true⟩ status
          = [Action.uv_mbed_read, Action.on_connection_established])
    ∧ (∀ status : Int, status < 0 →
        _mbed_connect_done_cb ⟨true, true, true⟩ status = [Action.uv_mbed_close]
        ∧ complete_close ⟨true, true, true⟩ (_mbed_connect_done_cb ⟨true, true, true⟩ status)
          = [Action.uv_mbed_close, Action.on_shutting_down, Action.uv_mbed_free,
              Action.free_ctx])
    ∧ (∀ es : List Event,
        (tls_client_launch ⟨true, true, true⟩
          ⟨ascii "/path", ascii "example.com", 443⟩).admissible es = true →
        data_after_established ((tls_client_launch ⟨true, true, true⟩
          ⟨ascii "/path", ascii "example.com", 443⟩).run es).trace = true) :=
  C13_connect_done_two_ways ⟨true, true, true⟩ ⟨ascii "/path", ascii "example.com", 443⟩
    rfl rfl

/-! ### The retry loops: C11 -/

/-- Retry codes at the head of the handshake results are passed over, each by
one more call of `mbedtls_ssl_handshake`. -/
theorem handshake_loop_retries (ws : List Int) (l : List Int)
    (hws : ∀ w ∈ ws, handshake_would_block w = true) :
    handshake_loop (ws ++ l)
      = (ws.map WorkerStep.ssl_handshake ++ (handshake_loop l).1, (handshake_loop l).2) := by
  induction ws with
  | nil => simp
  | cons w ws ih =>
    have hw := hws w (List.mem_cons_self _ _)
    have ih' := ih (fun y hy => hws y (List.mem_cons_of_mem _ hy))
    simp only [handshake_would_block, Bool.or_eq_true, decide_eq_true_eq] at hw
    have h0 : ¬ w = 0 := by
      rcases hw with (h | h) | h <;> rw [h] <;> decide
    have h1 : ¬ (w ≠ MBEDTLS_ERR_SSL_WANT_READ ∧ w ≠ MBEDTLS_ERR_SSL_WANT_WRITE
        ∧ w ≠ MBEDTLS_ERR_SSL_CRYPTO_IN_PROGRESS) := by
      rintro ⟨a, b, c⟩
      rcases hw with (h | h) | h
      · exact a h
      · exact b h
      · exact c h
    rw [List.cons_append]
    simp only [handshake_loop, if_neg h0, if_neg h1, ih', List.map_cons, List.cons_append]

/-- The handshake loop at a result that is no retry code. -/
theorem handshake_loop_result (r : Int) (rest : List Int)
    (hr : handshake_would_block r = false) :
    handshake_loop (r :: rest)
      = ([WorkerStep.ssl_handshake r], if r = 0 then LoopExit.completed else LoopExit.exit) := by
  simp only [handshake_would_block, Bool.or_eq_false_iff, decide_eq_false_iff_not] at hr
  by_cases h0 : r = 0
  · simp only [handshake_loop, if_pos h0]
  · simp only [handshake_loop, if_neg h0, if_pos (show r ≠ MBEDTLS_ERR_SSL_WANT_READ
      ∧ r ≠ MBEDTLS_ERR_SSL_WANT_WRITE ∧ r ≠ MBEDTLS_ERR_SSL_CRYPTO_IN_PROGRESS from
      ⟨hr.1.1, hr.1.2, hr.2⟩)]

theorem read_would_block_continues (ecp : Bool) (x : Int × List Nat)
    (h : read_would_block ecp x.1 = true) : read_continues ecp x = true := by
  simp only [read_would_block, Bool.or_eq_true, Bool.and_eq_true, decide_eq_true_eq] at h
  simp only [read_continues, Bool.or_eq_true, Bool.and_eq_true, decide_eq_true_eq]
  exact Or.inl h

/-- The steps of the read loop over retry codes only: one call of
`mbedtls_ssl_read` for each, nothing else. -/
theorem read_loop_retries_steps (ecp : Bool) (phr : List Nat → Int)
    (wr : List (Int × List Nat)) (hwr : ∀ x ∈ wr, read_would_block ecp x.1 = true) :
    (read_loop ecp phr wr).1 = wr.map (fun x => WorkerStep.ssl_read x.1) := by
  induction wr with
  | nil => simp [read_loop]
  | cons x wr ih =>
    obtain ⟨ret, buf⟩ := x
    have hx := hwr (ret, buf) (List.mem_cons_self _ _)
    have ih' := ih (fun y hy => hwr y (List.mem_cons_of_mem _ hy))
    simp only [read_would_block, Bool.or_eq_true, Bool.and_eq_true, decide_eq_true_eq] at hx
    by_cases c1 : ecp = true ∧ ret = MBEDTLS_ERR_SSL_CRYPTO_IN_PROGRESS
    · simp only [read_loop, if_pos c1, ih', List.map_cons]
    · have c2 : ret = MBEDTLS_ERR_SSL_WANT_READ ∨ ret = MBEDTLS_ERR_SSL_WANT_WRITE := by
        rcases hx with (h | h) | h
        · exact absurd h c1
        · exact Or.inl h
        · exact Or.inr h
      simp only [read_loop, if_neg c1, if_pos c2, ih', List.map_cons]

/-- The read loop at a result that is no retry code: data is notified, anything
else is not. -/
theorem read_loop_result (ecp : Bool) (phr : List Nat → Int) (r : Int) (buf : List Nat)
    (rest : List (Int × List Nat)) (hr : read_would_block ecp r = false) :
    (0 < r → (read_loop ecp phr ((r, buf) :: rest)).1.take 2
        = [WorkerStep.ssl_read r, WorkerStep.async_send
            (new_state_ctx phr tls_cli_state.tls_state_data_coming (some buf) r.toNat)])
    ∧ (r ≤ 0 → (read_loop ecp phr ((r, buf) :: rest)).1 = [WorkerStep.ssl_read r]) := by
  simp only [read_would_block, Bool.or_eq_false_iff, Bool.and_eq_false_imp,
    decide_eq_false_iff_not] at hr
  have c1 : ¬ (ecp = true ∧ r = MBEDTLS_ERR_SSL_CRYPTO_IN_PROGRESS) := fun h => hr.1.1 h.1 h.2
  have c2 : ¬ (r = MBEDTLS_ERR_SSL_WANT_READ ∨ r = MBEDTLS_ERR_SSL_WANT_WRITE) := by
    rintro (h | h)
    · exact hr.1.2 h
    · exact hr.2 h
  constructor
  · intro hpos
    have c3 : ¬ r ≤ 0 := by omega
    simp only [read_loop, if_neg c1, if_neg c2, if_neg c3]
    split <;> rfl
  · intro hle
    simp only [read_loop, if_neg c1, if_neg c2, if_pos hle]
    split
    · rfl
    · split <;> rfl

/-- C11 (amended): a run of retry codes followed by one other result `r`. The
handshake loop takes want-read, want-write and crypto-in-progress as retry
codes, the read loop takes want-read and want-write and, only when
`MBEDTLS_ECP_RESTARTABLE` is defined, crypto-in-progress. While the retry codes
are consumed each loop does nothing but repeat its engine call, no notification
is sent. After `r` the handshake loop ends: for `r = 0` the thread sends the
connected notification next, otherwise it goes to `exit` and sends the
notification of shutting down. After `r` the read loop sends a data
notification when `r > 0` and none when `r ≤ 0`. -/
theorem C11_retry_codes_are_passed_over (ecp : Bool) (phr : List Nat → Int)
    (ws : List Int) (r : Int) (rest : List Int)
    (wr : List (Int × List Nat)) (q : Int) (buf : List Nat) (rrest : List (Int × List Nat))
    (reads : List (Int × List Nat)) (closes : List Int)
    (hws : ∀ w ∈ ws, handshake_would_block w = true) (hr : handshake_would_block r = false)
    (hwr : ∀ x ∈ wr, read_would_block ecp x.1 = true) (hq : read_would_block ecp q = false) :
    handshake_loop (ws ++ r :: rest)
        = (ws.map WorkerStep.ssl_handshake ++ [WorkerStep.ssl_handshake r],
            if r = 0 then LoopExit.completed else LoopExit.exit)
    ∧ (r ≠ 0 → tls_cli_main_work_thread ecp phr
          { setup := 0, handshakes := ws ++ r :: rest, reads := reads, closes := closes }
        = (ws.map WorkerStep.ssl_handshake
            ++ [WorkerStep.ssl_handshake r, shutting_down_sent phr], true))
    ∧ (r = 0 → (tls_cli_main_work_thread ecp phr
          { setup := 0, handshakes := ws ++ r :: rest, reads := reads, closes := closes }).1
        = ws.map WorkerStep.ssl_handshake
            ++ [WorkerStep.ssl_handshake 0,
                WorkerStep.async_send ⟨none, tls_cli_state.tls_state_connected⟩]
            ++ (read_and_teardown ecp phr reads closes).1)
    ∧ (read_loop ecp phr (wr ++ (q, buf) :: rrest)).1
        = wr.map (fun x => WorkerStep.ssl_read x.1)
            ++ (read_loop ecp phr ((q, buf) :: rrest)).1
    ∧ (0 < q → (read_loop ecp phr ((q, buf) :: rrest)).1.take 2
        = [WorkerStep.ssl_read q, WorkerStep.async_send
            (new_state_ctx phr tls_cli_state.tls_state_data_coming (some buf) q.toNat)])
    ∧ (q ≤ 0 → (read_loop ecp phr ((q, buf) :: rrest)).1 = [WorkerStep.ssl_read q]) := by
  have hH : handshake_loop (ws ++ r :: rest)
      = (ws.map WorkerStep.ssl_handshake ++ [WorkerStep.ssl_handshake r],
          if r = 0 then LoopExit.completed else LoopExit.exit) := by
    rw [handshake_loop_retries ws _ hws, handshake_loop_result r rest hr]
  have hR := read_loop_result ecp phr q buf rrest hq
  refine ⟨hH, ?_, ?_, ?_, hR.1, hR.2⟩
  · intro h0
    unfold tls_cli_main_work_thread
    simp only [ne_eq, not_true_eq_false, if_false, hH, if_neg h0, List.append_assoc,
      List.singleton_append]
  · intro h0
    subst h0
    unfold tls_cli_main_work_thread
    simp only [ne_eq, not_true_eq_false, if_false, hH, if_true, List.append_assoc,
      List.singleton_append, List.cons_append, List.nil_append, new_state_ctx]
  · rw [read_loop_append ecp phr wr _ (fun x hx => read_would_block_continues ecp x (hwr x hx)),
      read_loop_retries_steps ecp phr wr hwr]

/-- C11, at a run with `MBEDTLS_ECP_RESTARTABLE` defined: two retry codes and then
success in the handshake, two retry codes and then five bytes in the read. -/
theorem C11_retry_codes_witness :
    ((∀ w ∈ [MBEDTLS_ERR_SSL_WANT_READ, MBEDTLS_ERR_SSL_CRYPTO_IN_PROGRESS],
        handshake_would_block w = true)
      ∧ handshake_would_block 0 = false
      ∧ (∀ x ∈ [(MBEDTLS_ERR_SSL_WANT_WRITE, ([] : List Nat)),
          (MBEDTLS_ERR_SSL_CRYPTO_IN_PROGRESS, [])], read_would_block true x.1 = true)
      ∧ read_would_block true 5 = false)
    ∧ (handshake_loop ([MBEDTLS_ERR_SSL_WANT_READ, MBEDTLS_ERR_SSL_CRYPTO_IN_PROGRESS] ++ 0 :: [])
        = ([MBEDTLS_ERR_SSL_WANT_READ, MBEDTLS_ERR_SSL_CRYPTO_IN_PROGRESS].map
              WorkerStep.ssl_handshake ++ [WorkerStep.ssl_handshake 0],
            if (0 : Int) = 0 then LoopExit.completed else LoopExit.exit)
    ∧ ((0 : Int) ≠ 0 → tls_cli_main_work_thread true phr_parse_response
          { setup := 0,
            handshakes := [MBEDTLS_ERR_SSL_WANT_READ, MBEDTLS_ERR_SSL_CRYPTO_IN_PROGRESS] ++ 0 :: [],
            reads := [(0, [])], closes := [0] }
        = ([MBEDTLS_ERR_SSL_WANT_READ, MBEDTLS_ERR_SSL_CRYPTO_IN_PROGRESS].map
              WorkerStep.ssl_handshake
            ++ [WorkerStep.ssl_handshake 0, shutting_down_sent phr_parse_response], true))
    ∧ ((0 : Int) = 0 → (tls_cli_main_work_thread true phr_parse_response
          { setup := 0,
            handshakes := [MBEDTLS_ERR_SSL_WANT_READ, MBEDTLS_ERR_SSL_CRYPTO_IN_PROGRESS] ++ 0 :: [],
            reads := [(0, [])], closes := [0] }).1
        = [MBEDTLS_ERR_SSL_WANT_READ, MBEDTLS_ERR_SSL_CRYPTO_IN_PROGRESS].map
              WorkerStep.ssl_handshake
            ++ [WorkerStep.ssl_handshake 0,
                WorkerStep.async_send ⟨none, tls_cli_state.tls_state_connected⟩]
            ++ (read_and_teardown true phr_parse_response [(0, [])] [0]).1)
    ∧ (read_loop true phr_parse_response
          ([(MBEDTLS_ERR_SSL_WANT_WRITE, []), (MBEDTLS_ERR_SSL_CRYPTO_IN_PROGRESS, [])]
            ++ (5, ascii "hello") :: [(0, [])])).1
        = [(MBEDTLS_ERR_SSL_WANT_WRITE, ([] : List Nat)),
            (MBEDTLS_ERR_SSL_CRYPTO_IN_PROGRESS, [])].map (fun x => WorkerStep.ssl_read x.1)
            ++ (read_loop true phr_parse_response ((5, ascii "hello") :: [(0, [])])).1
    ∧ ((0 : Int) < 5 → (read_loop true phr_parse_response
          ((5, ascii "hello") :: [(0, [])])).1.take 2
        = [WorkerStep.ssl_read 5, WorkerStep.async_send
            (new_state_ctx phr_parse_response tls_cli_state.tls_state_data_coming
              (some (ascii "hello")) (5 : Int).toNat)])
    ∧ ((5 : Int) ≤ 0 → (read_loop true phr_parse_response
          ((5, ascii "hello") :: [(0, [])])).1 = [WorkerStep.ssl_read 5])) :=
  ⟨by decide, C11_retry_codes_are_passed_over true phr_parse_response
    [MBEDTLS_ERR_SSL_WANT_READ, MBEDTLS_ERR_SSL_CRYPTO_IN_PROGRESS] 0 []
    [(MBEDTLS_ERR_SSL_WANT_WRITE, []), (MBEDTLS_ERR_SSL_CRYPTO_IN_PROGRESS, [])] 5
    (ascii "hello") [(0, [])] [(0, [])] [0] (by decide) (by decide) (by decide) (by decide)⟩

/-- C11 as stated fails in the read loop when `MBEDTLS_ECP_RESTARTABLE` is not
defined: the crypto-in-progress code is then no retry code of the read loop.
The read is not repeated, the five bytes that would follow are never read and
no data notification is sent: the thread goes to `exit` and sends the
notification of shutting down. -/
theorem C11_counterexample :
    read_loop false phr_parse_response
        [(MBEDTLS_ERR_SSL_CRYPTO_IN_PROGRESS, []), (5, ascii "hello")]
      = ([WorkerStep.ssl_read MBEDTLS_ERR_SSL_CRYPTO_IN_PROGRESS], LoopExit.exit)
    ∧ (tls_cli_main_work_thread false phr_parse_response
        { setup := 0, handshakes := [0],
          reads := [(MBEDTLS_ERR_SSL_CRYPTO_IN_PROGRESS, []), (5, ascii "hello")],
          closes := [0] }).1
      = [WorkerStep.ssl_handshake 0,
         WorkerStep.async_send ⟨none, tls_cli_state.tls_state_connected⟩,
         WorkerStep.ssl_read MBEDTLS_ERR_SSL_CRYPTO_IN_PROGRESS,
         WorkerStep.async_send ⟨none, tls_cli_state.tls_state_shutting_down⟩] := by
  decide

/-! ### The write loop: C12 -/

theorem write_fatal_iff (r : Int) :
    write_fatal r = true ↔ r < 0 ∧ (r ≠ MBEDTLS_ERR_SSL_WANT_READ
      ∧ r ≠ MBEDTLS_ERR_SSL_WANT_WRITE ∧ r ≠ MBEDTLS_ERR_SSL_CRYPTO_IN_PROGRESS) := by
  simp only [write_fatal, handshake_would_block, Bool.and_eq_true, decide_eq_true_eq,
    Bool.not_eq_true', Bool.or_eq_false_iff, decide_eq_false_iff_not, ne_eq, and_assoc]

theorem accepted_count_cons (r : Int) (l : List Int) :
    accepted_count (r :: l) = r.toNat + accepted_count l := by
  simp [accepted_count]

/-- Every call of the write loop offers the unsent rest of the request. -/
theorem write_loop_offers (request : List Nat) : ∀ (results : List Int) (written : Nat),
    offers_remainder request written (write_loop request written results).1 = true := by
  intro results
  induction results with
  | nil => intro written; rfl
  | cons ret rest ih =>
    intro written
    by_cases hneg : ret < 0
    · have hz : ret.toNat = 0 := Int.toNat_eq_zero.mpr (by omega)
      by_cases hf : ret ≠ MBEDTLS_ERR_SSL_WANT_READ ∧ ret ≠ MBEDTLS_ERR_SSL_WANT_WRITE
          ∧ ret ≠ MBEDTLS_ERR_SSL_CRYPTO_IN_PROGRESS
      · simp [write_loop, if_pos hneg, if_pos hf, offers_remainder]
      · have := ih written
        simp [write_loop, if_pos hneg, if_neg hf, offers_remainder, hz, this]
    · by_cases hlt : written + ret.toNat < request.length
      · have := ih (written + ret.toNat)
        simp [write_loop, if_neg hneg, if_pos hlt, offers_remainder, this]
      · simp [write_loop, if_neg hneg, if_neg hlt, offers_remainder]

/-- No call of the write loop starts before the offset the loop was entered
with. -/
theorem write_loop_offset_ge (request : List Nat) : ∀ (results : List Int) (written : Nat),
    ∀ s ∈ (write_loop request written results).1, written ≤ s.written := by
  intro results
  induction results with
  | nil => intro written s hs; simp [write_loop] at hs
  | cons ret rest ih =>
    intro written s hs
    by_cases hneg : ret < 0
    · by_cases hf : ret ≠ MBEDTLS_ERR_SSL_WANT_READ ∧ ret ≠ MBEDTLS_ERR_SSL_WANT_WRITE
          ∧ ret ≠ MBEDTLS_ERR_SSL_CRYPTO_IN_PROGRESS
      · simp only [write_loop, if_pos hneg, if_pos hf, List.mem_singleton] at hs
        rw [hs]
      · simp only [write_loop, if_pos hneg, if_neg hf, List.mem_cons] at hs
        rcases hs with hs | hs
        · rw [hs]
        · exact ih written s hs
    · by_cases hlt : written + ret.toNat < request.length
      · simp only [write_loop, if_neg hneg, if_pos hlt, List.mem_cons] at hs
        rcases hs with hs | hs
        · rw [hs]
        · have := ih (written + ret.toNat) s hs
          omega
      · simp only [write_loop, if_neg hneg, if_neg hlt, List.mem_singleton] at hs
        rw [hs]

/-- The offsets of the calls of the write loop never go back. -/
theorem write_loop_offsets_sorted (request : List Nat) :
    ∀ (results : List Int) (written : Nat),
    ((write_loop request written results).1.map WriteStep.written).Pairwise (· ≤ ·) := by
  intro results
  induction results with
  | nil => intro written; simp [write_loop]
  | cons ret rest ih =>
    intro written
    by_cases hneg : ret < 0
    · by_cases hf : ret ≠ MBEDTLS_ERR_SSL_WANT_READ ∧ ret ≠ MBEDTLS_ERR_SSL_WANT_WRITE
          ∧ ret ≠ MBEDTLS_ERR_SSL_CRYPTO_IN_PROGRESS
      · simp [write_loop, if_pos hneg, if_pos hf]
      · simp only [write_loop, if_pos hneg, if_neg hf, List.map_cons, List.pairwise_cons]
        refine ⟨?_, ih written⟩
        intro b hb
        obtain ⟨s, hs, rfl⟩ := List.mem_map.mp hb
        exact write_loop_offset_ge request rest written s hs
    · by_cases hlt : written + ret.toNat < request.length
      · simp only [write_loop, if_neg hneg, if_pos hlt, List.map_cons, List.pairwise_cons]
        refine ⟨?_, ih (written + ret.toNat)⟩
        intro b hb
        obtain ⟨s, hs, rfl⟩ := List.mem_map.mp hb
        have := write_loop_offset_ge request rest (written + ret.toNat) s hs
        omega
      · simp [write_loop, if_neg hneg, if_neg hlt]

/-- The value of the write loop: `true` when the counts accepted before the first
fatal code reach the length of the request, `false` when a fatal code comes
first, and still running when the results end before either. -/
theorem write_loop_result (request : List Nat) : ∀ (results : List Int) (written : Nat),
    written < request.length →
    (write_loop request written results).2
      = if request.length ≤ written
            + accepted_count (results.takeWhile (fun r => !write_fatal r)) then some true
        else if results.any write_fatal then some false else none := by
  intro results
  induction results with
  | nil =>
    intro written hw
    simp only [write_loop, List.takeWhile_nil, accepted_count, List.map_nil, List.sum_nil,
      Nat.add_zero, List.any_nil]
    rw [if_neg (by omega)]
    rfl
  | cons ret rest ih =>
    intro written hw
    by_cases hneg : ret < 0
    · have hz : ret.toNat = 0 := Int.toNat_eq_zero.mpr (by omega)
      by_cases hf : ret ≠ MBEDTLS_ERR_SSL_WANT_READ ∧ ret ≠ MBEDTLS_ERR_SSL_WANT_WRITE
          ∧ ret ≠ MBEDTLS_ERR_SSL_CRYPTO_IN_PROGRESS
      · have hfat : write_fatal ret = true := (write_fatal_iff ret).mpr ⟨hneg, hf⟩
        simp only [write_loop, if_pos hneg, if_pos hf, List.takeWhile_cons, hfat, Bool.not_true,
          Bool.false_eq_true, if_false, accepted_count, List.map_nil, List.sum_nil, Nat.add_zero,
          List.any_cons, Bool.true_or]
        rw [if_neg (by omega)]
        rfl
      · have hfat : write_fatal ret = false := by
          rw [Bool.eq_false_iff]
          intro h
          exact hf ((write_fatal_iff ret).mp h).2
        simp only [write_loop, if_pos hneg, if_neg hf, List.takeWhile_cons, hfat, Bool.not_false,
          if_true, accepted_count_cons, hz, Nat.zero_add, List.any_cons, Bool.false_or]
        exact ih written hw
    · have hfat : write_fatal ret = false := by
        rw [Bool.eq_false_iff]
        intro h
        exact hneg ((write_fatal_iff ret).mp h).1
      by_cases hlt : written + ret.toNat < request.length
      · simp only [write_loop, if_neg hneg, if_pos hlt, List.takeWhile_cons, hfat, Bool.not_false,
          if_true, accepted_count_cons, List.any_cons, Bool.false_or]
        rw [ih (written + ret.toNat) hlt, Nat.add_assoc]
      · simp only [write_loop, if_neg hneg, if_neg hlt, List.takeWhile_cons, hfat, Bool.not_false,
          if_true, accepted_count_cons]
        rw [if_pos (by omega)]

/-- When the write loop returns `true`, the bytes accepted call after call are
the request from the entry offset on. -/
theorem write_loop_accepted (request : List Nat) : ∀ (results : List Int) (written : Nat),
    (write_loop request written results).2 = some true →
    request.take written ++ (write_loop request written results).1.flatMap WriteStep.accepted
      = request := by
  intro results
  induction results with
  | nil => intro written h; simp [write_loop] at h
  | cons ret rest ih =>
    intro written h
    by_cases hneg : ret < 0
    · have hz : ret.toNat = 0 := Int.toNat_eq_zero.mpr (by omega)
      by_cases hf : ret ≠ MBEDTLS_ERR_SSL_WANT_READ ∧ ret ≠ MBEDTLS_ERR_SSL_WANT_WRITE
          ∧ ret ≠ MBEDTLS_ERR_SSL_CRYPTO_IN_PROGRESS
      · simp [write_loop, if_pos hneg, if_pos hf] at h
      · simp only [write_loop, if_pos hneg, if_neg hf] at h ⊢
        simp only [List.flatMap_cons, WriteStep.accepted, hz, List.take_zero, List.nil_append]
        exact ih written h
    · by_cases hlt : written + ret.toNat < request.length
      · simp only [write_loop, if_neg hneg, if_pos hlt] at h ⊢
        simp only [List.flatMap_cons, WriteStep.accepted]
        rw [← List.append_assoc, ← List.take_add]
        exact ih (written + ret.toNat) h
      · simp only [write_loop, if_neg hneg, if_neg hlt]
        simp only [List.flatMap_cons, List.flatMap_nil, List.append_nil, WriteStep.accepted]
        rw [← List.take_add, List.take_of_length_le (by omega)]

theorem takeWhile_not_fatal (results : List Int) (h : results.any write_fatal = false) :
    results.takeWhile (fun r => !write_fatal r) = results := by
  induction results with
  | nil => rfl
  | cons r rest ih =>
    simp only [List.any_cons, Bool.or_eq_false_iff] at h
    simp only [List.takeWhile_cons, h.1, Bool.not_false, if_true, ih h.2]

/-- With a request that fits the request buffer, `tls_cli_send_data` runs the
write loop over the rendered header followed by the payload. -/
theorem tls_cli_send_data_framed (path host : List Nat) (port : Nat) (P : List Nat)
    (results : List Int) (hport : port < 65536)
    (hhdr : (request_header path host port P.length).length < MAX_REQUEST_SIZE)
    (hfit : (request_header path host port P.length).length + P.length
      ≤ MAX_REQUEST_SIZE + 1) :
    tls_cli_send_data path host port (some P) P.length results
      = some (write_loop (request_header path host port P.length ++ P) 0 results) := by
  unfold tls_cli_send_data
  rw [send_data_request path host port P hport hhdr hfit]

/-- One turn of the write loop, with bytes still unsent: a fatal code ends the
loop with `false`, any other value is added to `written` (nothing for a retry
code) and the loop goes on from there, or ends with `true` when nothing is left
to send. -/
theorem write_loop_cons (request : List Nat) (ret : Int) (rest : List Int) (written : Nat)
    (hw : written < request.length) :
    write_loop request written (ret :: rest)
      = if write_fatal ret = true then
          ([⟨written, request.drop written, ret⟩], some false)
        else if written + ret.toNat < request.length then
          (⟨written, request.drop written, ret⟩
              :: (write_loop request (written + ret.toNat) rest).1,
            (write_loop request (written + ret.toNat) rest).2)
        else ([⟨written, request.drop written, ret⟩], some true) := by
  by_cases hneg : ret < 0
  · have hz : ret.toNat = 0 := Int.toNat_eq_zero.mpr (by omega)
    by_cases hf : ret ≠ MBEDTLS_ERR_SSL_WANT_READ ∧ ret ≠ MBEDTLS_ERR_SSL_WANT_WRITE
        ∧ ret ≠ MBEDTLS_ERR_SSL_CRYPTO_IN_PROGRESS
    · have hfat : write_fatal ret = true := (write_fatal_iff ret).mpr ⟨hneg, hf⟩
      simp only [write_loop, if_pos hneg, if_pos hf, if_pos hfat]
    · have hfat : ¬ write_fatal ret = true := fun h => hf ((write_fatal_iff ret).mp h).2
      simp only [write_loop, if_pos hneg, if_neg hf, if_neg hfat, hz, Nat.add_zero, if_pos hw]
  · have hfat : ¬ write_fatal ret = true := fun h => hneg ((write_fatal_iff ret).mp h).1
    simp only [write_loop, if_neg hneg, if_neg hfat]

/-- The calls of the write loop, one by one: call `k` is made at the offset reached
by the counts accepted in the `k` calls before it, offers the request from
that offset on, and returns the engine's result number `k`. -/
theorem write_loop_steps (request : List Nat) : ∀ (results : List Int) (written : Nat),
    written < request.length →
    (write_loop request written results).1
      = (List.range (write_loop request written results).1.length).map
          (fun k => (⟨written + accepted_count (results.take k),
            request.drop (written + accepted_count (results.take k)),
            results.getD k 0⟩ : WriteStep)) := by
  intro results
  induction results with
  | nil => intro written _; simp [write_loop]
  | cons ret rest ih =>
    intro written hw
    rw [write_loop_cons request ret rest written hw]
    have hone : List.range 1 = [0] := rfl
    by_cases hfat : write_fatal ret = true
    · rw [if_pos hfat]
      simp [hone, accepted_count]
    · by_cases hlt : written + ret.toNat < request.length
      · rw [if_neg hfat, if_pos hlt]
        simp only [List.length_cons, List.range_succ_eq_map, List.map_cons, List.map_map]
        refine List.cons_eq_cons.mpr ⟨?_, ?_⟩
        · simp [accepted_count]
        · conv_lhs => rw [ih (written + ret.toNat) hlt]
          apply List.map_congr_left
          intro k _
          simp [accepted_count_cons, Nat.add_assoc]
      · rw [if_neg hfat, if_neg hlt]
        simp [hone, accepted_count]

/-- A call of the write loop is made only while no fatal code has been returned
and bytes are still unsent. -/
theorem write_loop_calls_needed (request : List Nat) :
    ∀ (results : List Int) (written : Nat), written < request.length →
    ∀ k, k < (write_loop request written results).1.length →
      (results.take k).any write_fatal = false
      ∧ written + accepted_count (results.take k) < request.length := by
  intro results
  induction results with
  | nil => intro written _ k hk; simp [write_loop] at hk
  | cons ret rest ih =>
    intro written hw k hk
    cases k with
    | zero => simpa [accepted_count] using hw
    | succ k =>
      rw [write_loop_cons request ret rest written hw] at hk
      by_cases hfat : write_fatal ret = true
      · rw [if_pos hfat] at hk
        simp at hk
      · by_cases hlt : written + ret.toNat < request.length
        · rw [if_neg hfat, if_pos hlt] at hk
          simp only [List.length_cons, Nat.add_lt_add_iff_right] at hk
          have h := ih (written + ret.toNat) hlt k hk
          have hfat' : write_fatal ret = false := by simpa using hfat
          simp only [List.take_succ_cons, List.any_cons, hfat', Bool.false_or,
            accepted_count_cons]
          exact ⟨h.1, by omega⟩
        · rw [if_neg hfat, if_neg hlt] at hk
          simp at hk

/-- The write loop makes no more calls than it has results, and stops before the
results end only after a fatal code or when the accepted counts have reached the
length of the request. -/
theorem write_loop_stops (request : List Nat) :
    ∀ (results : List Int) (written : Nat), written < request.length →
    (write_loop request written results).1.length ≤ results.length
    ∧ ((write_loop request written results).1.length < results.length →
        (results.take (write_loop request written results).1.length).any write_fatal = true
        ∨ request.length ≤ written
            + accepted_count (results.take (write_loop request written results).1.length)) := by
  intro results
  induction results with
  | nil => intro written _; simp [write_loop]
  | cons ret rest ih =>
    intro written hw
    rw [write_loop_cons request ret rest written hw]
    by_cases hfat : write_fatal ret = true
    · rw [if_pos hfat]
      simp [hfat]
    · have hfat' : write_fatal ret = false := by simpa using hfat
      by_cases hlt : written + ret.toNat < request.length
      · have h := ih (written + ret.toNat) hlt
        rw [if_neg hfat, if_pos hlt]
        simp only [List.length_cons, Nat.add_le_add_iff_right, Nat.add_lt_add_iff_right,
          List.take_succ_cons, List.any_cons, hfat', Bool.false_or, accepted_count_cons]
        refine ⟨h.1, fun hk => ?_⟩
        rcases h.2 hk with h2 | h2
        · exact Or.inl h2
        · exact Or.inr (by omega)
      · rw [if_neg hfat, if_neg hlt]
        simp only [List.length_cons, List.length_nil, Nat.zero_add, List.take_succ_cons,
          List.take_zero, accepted_count_cons]
        refine ⟨by omega, fun _ => Or.inr ?_⟩
        simp only [accepted_count, List.map_nil, List.sum_nil]
        omega

/-- C12: for every framed request and every sequence of values returned by
`mbedtls_ssl_write`, the write loop of `tls_cli_send_data` makes its calls one
after the other on the engine's results: call `k` returns result `k`, is made at
the offset `written` that the counts accepted before it add up to, and offers
exactly the unsent rest `request[written ..)`; the offsets never go back. A
call is made only while no fatal code was returned and bytes are unsent, and
the loop stops before the results end only after a fatal code or once all
bytes are accepted. It returns `true` exactly when the counts accepted before
the first fatal code reach the length of the request, the bytes accepted call
after call are then the request itself, and the loop is still running after the
listed values only when none of them is fatal and the accepted counts stay
below the length of the request. With a request that fits the request buffer
`tls_cli_send_data` is this loop over the rendered header and the payload. -/
theorem C12_write_loop_resumes (request : List Nat) (results : List Int)
    (hne : request ≠ []) :
    (write_loop request 0 results).1
        = (List.range (write_loop request 0 results).1.length).map
            (fun k => (⟨accepted_count (results.take k),
              request.drop (accepted_count (results.take k)), results.getD k 0⟩ : WriteStep))
    ∧ (write_loop request 0 results).1.length ≤ results.length
    ∧ (∀ k, k < (write_loop request 0 results).1.length →
        (results.take k).any write_fatal = false
        ∧ accepted_count (results.take k) < request.length)
    ∧ ((write_loop request 0 results).1.length < results.length →
        (results.take (write_loop request 0 results).1.length).any write_fatal = true
        ∨ request.length
            ≤ accepted_count (results.take (write_loop request 0 results).1.length))
    ∧ offers_remainder request 0 (write_loop request 0 results).1 = true
    ∧ ((write_loop request 0 results).1.map WriteStep.written).Pairwise (· ≤ ·)
    ∧ ((write_loop request 0 results).2 = some true
        ↔ request.length ≤ accepted_count (results.takeWhile (fun r => !write_fatal r)))
    ∧ ((write_loop request 0 results).2 = some true →
        (write_loop request 0 results).1.flatMap WriteStep.accepted = request)
    ∧ ((write_loop request 0 results).2 = none
        ↔ (results.any write_fatal = false ∧ accepted_count results < request.length))
    ∧ ((write_loop request 0 results).2 = some false
        ↔ (results.any write_fatal = true
          ∧ accepted_count (results.takeWhile (fun r => !write_fatal r)) < request.length))
    ∧ (∀ (path host : List Nat) (port : Nat) (P : List Nat), port < 65536 →
        (request_header path host port P.length).length < MAX_REQUEST_SIZE →
        (request_header path host port P.length).length + P.length ≤ MAX_REQUEST_SIZE + 1 →
        tls_cli_send_data path host port (some P) P.length results
          = some (write_loop (request_header path host port P.length ++ P) 0 results)) := by
  have hpos : 0 < request.length := List.length_pos.mpr hne
  have hres := write_loop_result request results 0 hpos
  rw [Nat.zero_add] at hres
  have hsteps := write_loop_steps request results 0 hpos
  have hneed := write_loop_calls_needed request results 0 hpos
  have hstop := write_loop_stops request results 0 hpos
  simp only [Nat.zero_add] at hsteps hneed hstop
  refine ⟨hsteps, hstop.1, hneed, hstop.2, write_loop_offers request results 0,
    write_loop_offsets_sorted request results 0, ?_, ?_, ?_, ?_, ?_⟩
  · rw [hres]
    constructor
    · intro h
      by_contra hc
      rw [if_neg hc] at h
      split at h <;> simp at h
    · intro h
      rw [if_pos h]
  · intro h
    have := write_loop_accepted request results 0 h
    simpa using this
  · rw [hres]
    constructor
    · intro h
      by_cases hc : request.length
          ≤ accepted_count (results.takeWhile (fun r => !write_fatal r))
      · rw [if_pos hc] at h
        simp at h
      · rw [if_neg hc] at h
        by_cases ha : results.any write_fatal = true
        · rw [if_pos ha] at h
          simp at h
        · have ha' : results.any write_fatal = false := by simpa using ha
          rw [takeWhile_not_fatal results ha'] at hc
          exact ⟨ha', by omega⟩
    · rintro ⟨ha, hlt⟩
      rw [takeWhile_not_fatal results ha, if_neg (by omega), ha]
      rfl
  · rw [hres]
    constructor
    · intro h
      by_cases hc : request.length
          ≤ accepted_count (results.takeWhile (fun r => !write_fatal r))
      · rw [if_pos hc] at h
        simp at h
      · rw [if_neg hc] at h
        by_cases ha : results.any write_fatal = true
        · exact ⟨ha, by omega⟩
        · rw [if_neg ha] at h
          simp at h
    · rintro ⟨ha, hlt⟩
      rw [if_neg (by omega), if_pos ha]
  · intro path host port P hport hhdr hfit
    exact tls_cli_send_data_framed path host port P results hport hhdr hfit

set_option maxRecDepth 100000 in
/-- C12, at the framed request of the scenario, written in two parts with
retries in between. -/
theorem C12_write_loop_witness :
    scenario_request ≠ []
    ∧ ((write_loop scenario_request 0 scenario_write_results).1
          = (List.range (write_loop scenario_request 0 scenario_write_results).1.length).map
              (fun k => (⟨accepted_count (scenario_write_results.take k),
                scenario_request.drop (accepted_count (scenario_write_results.take k)),
                scenario_write_results.getD k 0⟩ : WriteStep))
      ∧ (write_loop scenario_request 0 scenario_write_results).1.length
          ≤ scenario_write_results.length
      ∧ (∀ k, k < (write_loop scenario_request 0 scenario_write_results).1.length →
          (scenario_write_results.take k).any write_fatal = false
          ∧ accepted_count (scenario_write_results.take k) < scenario_request.length)
      ∧ ((write_loop scenario_request 0 scenario_write_results).1.length
            < scenario_write_results.length →
          (scenario_write_results.take
              (write_loop scenario_request 0 scenario_write_results).1.length).any
            write_fatal = true
          ∨ scenario_request.length
              ≤ accepted_count (scenario_write_results.take
                  (write_loop scenario_request 0 scenario_write_results).1.length))
      ∧ offers_remainder scenario_request 0
          (write_loop scenario_request 0 scenario_write_results).1 = true
      ∧ ((write_loop scenario_request 0 scenario_write_results).1.map
          WriteStep.written).Pairwise (· ≤ ·)
      ∧ ((write_loop scenario_request 0 scenario_write_results).2 = some true
          ↔ scenario_request.length
            ≤ accepted_count (scenario_write_results.takeWhile (fun r => !write_fatal r)))
      ∧ ((write_loop scenario_request 0 scenario_write_results).2 = some true →
          (write_loop scenario_request 0 scenario_write_results).1.flatMap WriteStep.accepted
            = scenario_request)
      ∧ ((write_loop scenario_request 0 scenario_write_results).2 = none
          ↔ (scenario_write_results.any write_fatal = false
            ∧ accepted_count scenario_write_results < scenario_request.length))
      ∧ ((write_loop scenario_request 0 scenario_write_results).2 = some false
          ↔ (scenario_write_results.any write_fatal = true
            ∧ accepted_count (scenario_write_results.takeWhile (fun r => !write_fatal r))
              < scenario_request.length))
      ∧ (∀ (path host : List Nat) (port : Nat) (P : List Nat), port < 65536 →
          (request_header path host port P.length).length < MAX_REQUEST_SIZE →
          (request_header path host port P.length).length + P.length
            ≤ MAX_REQUEST_SIZE + 1 →
          tls_cli_send_data path host port (some P) P.length scenario_write_results
            = some (write_loop (request_header path host port P.length ++ P) 0
                scenario_write_results))) :=
  ⟨by decide, C12_write_loop_resumes scenario_request scenario_write_results (by decide)⟩

/-- The write loop on a request of five bytes: a retry, two bytes accepted, a
retry, none accepted, the other three accepted; the last listed value is not
asked for. -/
theorem write_loop_example :
    write_loop (ascii "hello") 0
        [MBEDTLS_ERR_SSL_WANT_READ, 2, MBEDTLS_ERR_SSL_WANT_WRITE, 0, 3, 7]
      = ([⟨0, ascii "hello", MBEDTLS_ERR_SSL_WANT_READ⟩, ⟨0, ascii "hello", 2⟩,
          ⟨2, ascii "llo", MBEDTLS_ERR_SSL_WANT_WRITE⟩, ⟨2, ascii "llo", 0⟩,
          ⟨2, ascii "llo", 3⟩], some true) := by
  decide

end TlsCli
